import Mathlib

/-!
# CHIP-8 emulator core (`src/Chip8.hpp`, `src/Chip8.cpp`)

A shallow embedding of the `Chip8` class and of its instruction handlers.

* Every C++ array member is a total map `Nat → Nat`; the array length is a
  separate constant and an access whose index is computed at run time from the
  stack pointer, the index register or the sprite position is checked against
  it.  An index outside the array is undefined behaviour in C++; the embedding
  reports it as a `Fault`.
* Machine integers are naturals, with the width of the destination applied
  explicitly (`% 256` for `uint8_t`, `% 65536` for `uint16_t`).
* The source defines two functions named `OP_8XY5` (SUB, then SUBN); the second
  one is embedded as `OP_8XY5_SUBN`.
-/

namespace Chip8Emu

/-! ## Constants of `Chip8.hpp` -/

def VIDEO_WIDTH : Nat := 64
def VIDEO_HEIGHT : Nat := 32
def KEYS : Nat := 14
def MEMORY_SIZE : Nat := 4096
def STACK_SIZE : Nat := 16
def REGISTER_AMT : Nat := 16

/-- The data members of `class Chip8`. -/
structure Chip8 where
  /-- The `uint8_t keypad[KEYS]` member. -/
  keypad : Nat → Nat
  /-- The `uint32_t video[VIDEO_WIDTH * VIDEO_HEIGHT]` member. -/
  video : Nat → Nat
  /-- The `uint8_t registers[REGISTER_AMT]` member. -/
  registers : Nat → Nat
  /-- The `uint8_t memory[MEMORY_SIZE]` member. -/
  memory : Nat → Nat
  /-- The `uint16_t index` member. -/
  index : Nat
  /-- The `uint16_t pc` member. -/
  pc : Nat
  /-- The `uint16_t stack[STACK_SIZE]` member. -/
  stack : Nat → Nat
  /-- The `uint8_t sp` member. -/
  sp : Nat
  /-- The `uint8_t delayTimer` member. -/
  delayTimer : Nat
  /-- The `uint8_t soundTimer` member. -/
  soundTimer : Nat
  /-- The `uint16_t opcode` member. -/
  opcode : Nat

/-- The arrays whose index is computed at run time. -/
inductive ArrayId where
  | stack
  | memory
  | video
  deriving DecidableEq, Repr

/-- An access `array[index]` with `index` outside the array: the source has no
defined error for it, in C++ the behaviour is undefined. -/
inductive Fault where
  | outOfBounds (array : ArrayId) (index : Nat)
  deriving DecidableEq, Repr

/-- The assignment `a[i] = v`. -/
def setAt (a : Nat → Nat) (i v : Nat) : Nat → Nat :=
  fun j => if j = i then v else a j

/-- The values of a state fit the widths of the C++ members. -/
structure Typed (s : Chip8) : Prop where
  registers_lt : ∀ i, s.registers i < 256
  memory_lt : ∀ i, s.memory i < 256
  video_lt : ∀ i, s.video i < 4294967296
  stack_lt : ∀ i, s.stack i < 65536
  index_lt : s.index < 65536
  pc_lt : s.pc < 65536
  sp_lt : s.sp < 256
  opcode_lt : s.opcode < 65536

/-- The selector `(opcode & 0x0F00u) >> 8u`, stored in a `uint8_t`. -/
def selX (opcode : Nat) : Nat := ((opcode &&& 0x0F00) >>> 8) % 256

/-- The selector `(opcode & 0x00F0u) >> 4u`, stored in a `uint8_t`. -/
def selY (opcode : Nat) : Nat := ((opcode &&& 0x00F0) >>> 4) % 256

/-- The conversion of an `int` result to `uint8_t`. -/
def toU8 (z : Int) : Nat := (z % 256).toNat

/-! ## Arithmetic handlers -/

/-- ADD Vx, Vy (`Chip8::OP_8XY4`). -/
def OP_8XY4 (s : Chip8) : Chip8 :=
  let Vx := selX s.opcode
  let Vy := selY s.opcode
  let sum := (s.registers Vx + s.registers Vy) % 65536
  let r1 := if sum > 255 then setAt s.registers 0xF 1 else setAt s.registers 0xF 0
  { s with registers := setAt r1 Vx (sum &&& 0xFF) }

/-- SUB Vx, Vy (`Chip8::OP_8XY5`, first definition). -/
def OP_8XY5 (s : Chip8) : Chip8 :=
  let Vx := selX s.opcode
  let Vy := selY s.opcode
  let r1 := if s.registers Vx > s.registers Vy then setAt s.registers 0xF 1
            else setAt s.registers 0xF 0
  { s with registers := setAt r1 Vx (toU8 ((r1 Vx : Int) - (r1 Vy : Int))) }

/-- SHR Vx (`Chip8::OP_8XY6`). -/
def OP_8XY6 (s : Chip8) : Chip8 :=
  let Vx := selX s.opcode
  let r1 := setAt s.registers 0xF (s.registers Vx &&& 0x1)
  { s with registers := setAt r1 Vx ((r1 Vx >>> 1) % 256) }

/-- SUBN Vx, Vy (`Chip8::OP_8XY5`, second definition). -/
def OP_8XY5_SUBN (s : Chip8) : Chip8 :=
  let Vx := selX s.opcode
  let Vy := selY s.opcode
  let r1 := if s.registers Vy > s.registers Vx then setAt s.registers 0xF 1
            else setAt s.registers 0xF 0
  { s with registers := setAt r1 Vx (toU8 ((r1 Vy : Int) - (r1 Vx : Int))) }

/-- SHL Vx (`Chip8::OP_8XYE`). -/
def OP_8XYE (s : Chip8) : Chip8 :=
  let Vx := selX s.opcode
  let r1 := setAt s.registers 0xF (((s.registers Vx &&& 0x1) >>> 7) % 256)
  { s with registers := setAt r1 Vx ((r1 Vx <<< 1) % 256) }

/-! ## Control flow and display handlers -/

/-- CLS (`Chip8::OP_00E0`): `memset(video, 0, sizeof(video))`. -/
def OP_00E0 (s : Chip8) : Chip8 :=
  { s with video := fun i => if i < VIDEO_WIDTH * VIDEO_HEIGHT then 0 else s.video i }

/-- RET (`Chip8::OP_00EE`): `--sp; pc = stack[sp];`. -/
def OP_00EE (s : Chip8) : Except Fault Chip8 :=
  let sp1 := (s.sp + 255) % 256
  if sp1 < STACK_SIZE then
    .ok { s with sp := sp1, pc := s.stack sp1 }
  else
    .error (.outOfBounds .stack sp1)

/-- CALL addr (`Chip8::OP_2NNN`): `stack[sp] = pc; sp++; pc = addr;`. -/
def OP_2NNN (s : Chip8) : Except Fault Chip8 :=
  let addr := (s.opcode &&& 0x0FFF) % 65536
  if s.sp < STACK_SIZE then
    .ok { s with stack := setAt s.stack s.sp s.pc, sp := (s.sp + 1) % 256, pc := addr }
  else
    .error (.outOfBounds .stack s.sp)

/-- One pass of the body of the column loop of `Chip8::OP_DXYN`, for the
column `col` of the sprite row `row`. -/
def drawPixel (spriteByte xPos yPos row col : Nat) (s : Chip8) : Except Fault Chip8 :=
  let spritePixel := (spriteByte &&& (0x80 >>> col)) % 256
  let i := (yPos + row) * VIDEO_WIDTH + (xPos + col)
  if spritePixel ≠ 0 then
    if i < VIDEO_WIDTH * VIDEO_HEIGHT then
      let r1 := if s.video i = 0xFFFFFFFF then setAt s.registers 0xF 1 else s.registers
      .ok { s with registers := r1, video := setAt s.video i (s.video i ^^^ 0xFFFFFFFF) }
    else
      .error (.outOfBounds .video i)
  else
    .ok s

/-- The column loop `for (col = 0; col < 8; ++col)` of `Chip8::OP_DXYN`, with
`n` columns left to visit from `col` on. -/
def colLoop (spriteByte xPos yPos row : Nat) : Nat → Nat → Chip8 → Except Fault Chip8
  | 0, _, s => .ok s
  | n + 1, col, s =>
    match drawPixel spriteByte xPos yPos row col s with
    | .ok s1 => colLoop spriteByte xPos yPos row n (col + 1) s1
    | .error f => .error f

/-- The body of the row loop of `Chip8::OP_DXYN`: the read of the sprite byte
`memory[index + row]` and the eight columns. -/
def drawRow (xPos yPos row : Nat) (s : Chip8) : Except Fault Chip8 :=
  if s.index + row < MEMORY_SIZE then
    colLoop (s.memory (s.index + row)) xPos yPos row 8 0 s
  else
    .error (.outOfBounds .memory (s.index + row))

/-- The row loop `for (unsigned int row = 0; row < height; +row)` of
`Chip8::OP_DXYN`.  The third clause of the `for` is the expression `+row`,
which leaves `row` as it is, so the next pass runs with the same `row`.
`fuel` bounds the number of evaluations of the loop condition; `none` means the
loop is still running when the fuel is spent. -/
def rowLoop (height xPos yPos : Nat) : Nat → Nat → Chip8 → Option (Except Fault Chip8)
  | 0, _, _ => none
  | fuel + 1, row, s =>
    if row < height then
      match drawRow xPos yPos row s with
      | .ok s1 => rowLoop height xPos yPos fuel row s1
      | .error f => some (.error f)
    else
      some (.ok s)

/-- DRW Vx, Vy, nibble (`Chip8::OP_DXYN`). -/
def OP_DXYN (fuel : Nat) (s : Chip8) : Option (Except Fault Chip8) :=
  let Vx := selX s.opcode
  let Vy := selY s.opcode
  let height := (s.opcode &&& 0x000F) % 256
  let xPos := (s.registers Vx % VIDEO_WIDTH) % 256
  let yPos := (s.registers Vy % VIDEO_HEIGHT) % 256
  rowLoop height xPos yPos fuel 0 { s with registers := setAt s.registers 0xF 0 }

/-! ## Jumps, skips and loads -/

/-- JP addr (`Chip8::OP_1NNN`). -/
def OP_1NNN (s : Chip8) : Chip8 :=
  let addr := (s.opcode &&& 0x0FFF) % 65536
  { s with pc := addr }

/-- SE Vx, byte (`Chip8::OP_3XNN`, first definition). -/
def OP_3XNN (s : Chip8) : Chip8 :=
  let Vx := selX s.opcode
  let byte := (s.opcode &&& 0x00FF) % 256
  if s.registers Vx = byte then { s with pc := (s.pc + 2) % 65536 } else s

/-- SNE Vx, byte (`Chip8::OP_3XNN`, second definition; declared as `OP_4XNN`). -/
def OP_3XNN_SNE (s : Chip8) : Chip8 :=
  let Vx := selX s.opcode
  let byte := (s.opcode &&& 0x00FF) % 256
  if s.registers Vx ≠ byte then { s with pc := (s.pc + 2) % 65536 } else s

/-- SE Vx, Vy (`Chip8::OP_5XY0`). -/
def OP_5XY0 (s : Chip8) : Chip8 :=
  let Vx := selX s.opcode
  let Vy := selY s.opcode
  if s.registers Vx = s.registers Vy then { s with pc := (s.pc + 2) % 65536 } else s

/-- ADD Vx, byte (`Chip8::OP_7XNN`). -/
def OP_7XNN (s : Chip8) : Chip8 :=
  let Vx := selX s.opcode
  let byte := (s.opcode &&& 0x00FF) % 256
  { s with registers := setAt s.registers Vx ((s.registers Vx + byte) % 256) }

/-- LD Vx, Vy (`Chip8::OP_8XY0`). -/
def OP_8XY0 (s : Chip8) : Chip8 :=
  let Vx := selX s.opcode
  let Vy := selY s.opcode
  { s with registers := setAt s.registers Vx (s.registers Vy) }

/-- OR Vx, Vy (`Chip8::OP_8XY1`). -/
def OP_8XY1 (s : Chip8) : Chip8 :=
  let Vx := selX s.opcode
  let Vy := selY s.opcode
  { s with registers := setAt s.registers Vx ((s.registers Vx ||| s.registers Vy) % 256) }

/-- AND Vx, Vy (`Chip8::OP_8XY2`). -/
def OP_8XY2 (s : Chip8) : Chip8 :=
  let Vx := selX s.opcode
  let Vy := selY s.opcode
  { s with registers := setAt s.registers Vx ((s.registers Vx &&& s.registers Vy) % 256) }

/-- XOR Vx, Vy (`Chip8::OP_8XY3`). -/
def OP_8XY3 (s : Chip8) : Chip8 :=
  let Vx := selX s.opcode
  let Vy := selY s.opcode
  { s with registers := setAt s.registers Vx ((s.registers Vx ^^^ s.registers Vy) % 256) }

/-- SNE Vx, Vy (`Chip8::OP_9XY0`). -/
def OP_9XY0 (s : Chip8) : Chip8 :=
  let Vx := selX s.opcode
  let Vy := selY s.opcode
  if s.registers Vx ≠ s.registers Vy then { s with pc := (s.pc + 2) % 65536 } else s

/-- LD I, addr (`Chip8::OP_ANNN`). -/
def OP_ANNN (s : Chip8) : Chip8 :=
  let addr := (s.opcode &&& 0x0FFF) % 65536
  { s with index := addr }

/-- JP V0, addr (`Chip8::OP_BNNN`). -/
def OP_BNNN (s : Chip8) : Chip8 :=
  let addr := (s.opcode &&& 0x0FFF) % 65536
  { s with pc := (s.registers 0 + addr) % 65536 }

/-! ## Construction and program load -/

def FREE_START_ADDRESS : Nat := 0x200
def CHARACTER_SIZE : Nat := 80
def CHARACTERSET_START_ADDRESS : Nat := 0x50

/-- The table `characterset[CHARACTER_SIZE]`. -/
def characterset : List Nat :=
  [0xF0, 0x90, 0x90, 0x90, 0xF0,
   0x20, 0x60, 0x20, 0x20, 0x70,
   0xF0, 0x10, 0xF0, 0x80, 0xF0,
   0xF0, 0x10, 0xF0, 0x10, 0xF0,
   0x90, 0x90, 0xF0, 0x10, 0x10,
   0xF0, 0x80, 0xF0, 0x10, 0xF0,
   0xF0, 0x80, 0xF0, 0x90, 0xF0,
   0xF0, 0x10, 0x20, 0x40, 0x40,
   0xF0, 0x90, 0xF0, 0x90, 0xF0,
   0xF0, 0x90, 0xF0, 0x10, 0xF0,
   0xF0, 0x90, 0xF0, 0x90, 0x90,
   0xE0, 0x90, 0xE0, 0x90, 0xE0,
   0xF0, 0x80, 0x80, 0x80, 0xF0,
   0xE0, 0x90, 0x90, 0x90, 0xE0,
   0xF0, 0x80, 0xF0, 0x80, 0xF0,
   0xF0, 0x80, 0xF0, 0x80, 0x80]

/-- The loop `for (i = 0; i < CHARACTER_SIZE; ++i)` of the constructor, with
`n` passes left from `i` on. -/
def storeCharacterset : Nat → Nat → (Nat → Nat) → (Nat → Nat)
  | 0, _, m => m
  | n + 1, i, m =>
    storeCharacterset n (i + 1) (setAt m (CHARACTERSET_START_ADDRESS + i) (characterset.getD i 0))

/-- The constructor `Chip8::Chip8`.  The members with a `{}` initialiser start
at zero; `stack` and `opcode` have none, so their initial values are whatever
the storage holds and are parameters here.  The random generator is left out. -/
def Chip8.Chip8 (stack0 : Nat → Nat) (opcode0 : Nat) : Chip8 where
  keypad := fun _ => 0
  video := fun _ => 0
  registers := fun _ => 0
  memory := storeCharacterset CHARACTER_SIZE 0 (fun _ => 0)
  index := 0
  pc := FREE_START_ADDRESS
  stack := stack0
  sp := 0
  delayTimer := 0
  soundTimer := 0
  opcode := opcode0

/-- The copy loop `for (long i = 0; i < fsize; ++i)` of `Chip8::LoadROM`, with
`n` passes left from `i` on: `memory[FREE_START_ADDRESS + i] = buffer[i]`. -/
def romLoop (buffer : List Nat) : Nat → Nat → (Nat → Nat) → Except Fault (Nat → Nat)
  | 0, _, m => .ok m
  | n + 1, i, m =>
    if FREE_START_ADDRESS + i < MEMORY_SIZE then
      romLoop buffer n (i + 1) (setAt m (FREE_START_ADDRESS + i) (buffer.getD i 0 % 256))
    else
      .error (.outOfBounds .memory (FREE_START_ADDRESS + i))

/-- The function `Chip8::LoadROM`: `file` is the content of the file as bytes,
or `none` when the file cannot be opened. -/
def LoadROM (file : Option (List Nat)) (s : Chip8) : Except Fault Chip8 :=
  match file with
  | none => .ok s
  | some buffer =>
    match romLoop buffer buffer.length 0 s.memory with
    | .ok m => .ok { s with memory := m }
    | .error f => .error f

/-! ## The fetch-decode-execute cycle -/

/-- Modelled from the spec: LD Vx,NN, the handler `OP_6XNN` that `Chip8.hpp`
declares and `Chip8.cpp` does not define; the spec gives `Vx = NN`. -/
def OP_6XNN (s : Chip8) : Chip8 :=
  let Vx := selX s.opcode
  let byte := (s.opcode &&& 0x00FF) % 256
  { s with registers := setAt s.registers Vx byte }

/-- The ways a cycle can end without a next state: the errors the spec names,
a fault of a handler, a DRW still in its loop when the fuel is spent, and an
instruction whose handler this development does not embed. -/
inductive StepError where
  | invalidFetch
  | unknownOpcode
  | fault (f : Fault)
  | running
  | notEmbedded
  deriving DecidableEq, Repr

/-- A handler that can fault, as a result of the cycle. -/
def ofFault : Except Fault Chip8 → Except StepError Chip8
  | .ok s => .ok s
  | .error f => .error (.fault f)

/-- A DRW run with fuel, as a result of the cycle. -/
def ofDraw : Option (Except Fault Chip8) → Except StepError Chip8
  | some r => ofFault r
  | none => .error .running

/-- Modelled from the spec: the decode and execute stages of `step()` (spec
section 4.2), which the source does not define: dispatch on the top nibble of
the opcode, with a second dispatch for the nibbles 0x0 and 0x8.  RND and the
instructions of the nibbles 0xE and 0xF have no embedded handler. -/
def execute (fuel : Nat) (s : Chip8) : Except StepError Chip8 :=
  match s.opcode >>> 12 with
  | 0x0 =>
    if s.opcode = 0x00E0 then .ok (OP_00E0 s)
    else if s.opcode = 0x00EE then ofFault (OP_00EE s)
    else .error .unknownOpcode
  | 0x1 => .ok (OP_1NNN s)
  | 0x2 => ofFault (OP_2NNN s)
  | 0x3 => .ok (OP_3XNN s)
  | 0x4 => .ok (OP_3XNN_SNE s)
  | 0x5 => if s.opcode &&& 0x000F = 0 then .ok (OP_5XY0 s) else .error .unknownOpcode
  | 0x6 => .ok (OP_6XNN s)
  | 0x7 => .ok (OP_7XNN s)
  | 0x8 =>
    match s.opcode &&& 0x000F with
    | 0x0 => .ok (OP_8XY0 s)
    | 0x1 => .ok (OP_8XY1 s)
    | 0x2 => .ok (OP_8XY2 s)
    | 0x3 => .ok (OP_8XY3 s)
    | 0x4 => .ok (OP_8XY4 s)
    | 0x5 => .ok (OP_8XY5 s)
    | 0x6 => .ok (OP_8XY6 s)
    | 0x7 => .ok (OP_8XY5_SUBN s)
    | 0xE => .ok (OP_8XYE s)
    | _ => .error .unknownOpcode
  | 0x9 => if s.opcode &&& 0x000F = 0 then .ok (OP_9XY0 s) else .error .unknownOpcode
  | 0xA => .ok (OP_ANNN s)
  | 0xB => .ok (OP_BNNN s)
  | 0xD => ofDraw (OP_DXYN fuel s)
  | _ => .error .notEmbedded

/-- Modelled from the spec: one cycle `step()` (spec section 4.2), which the
source does not define: fetch the big-endian opcode `memory[PC] << 8 |
memory[PC+1]` (`InvalidFetch` when PC or PC+1 is outside memory), advance PC by
2, then decode and execute. -/
def step (fuel : Nat) (s : Chip8) : Except StepError Chip8 :=
  if s.pc + 1 < MEMORY_SIZE then
    let opcode := ((s.memory s.pc <<< 8) ||| s.memory (s.pc + 1)) % 65536
    execute fuel { s with opcode := opcode, pc := (s.pc + 2) % 65536 }
  else
    .error .invalidFetch

/-- Running `n` cycles in a row; an error ends the run. -/
def steps (fuel : Nat) : Nat → Chip8 → Except StepError Chip8
  | 0, s => .ok s
  | n + 1, s =>
    match step fuel s with
    | .ok s1 => steps fuel n s1
    | .error e => .error e

/-- A state with `V0 = a`, `V1 = b`, `VF = f`, the opcode `op`, and every other
member zero. -/
def regState (a b f op : Nat) : Chip8 where
  keypad := fun _ => 0
  video := fun _ => 0
  registers := fun i => if i = 0 then a else if i = 1 then b else if i = 0xF then f else 0
  memory := fun _ => 0
  index := 0
  pc := 0x200
  stack := fun _ => 0
  sp := 0
  delayTimer := 0
  soundTimer := 0
  opcode := op

/-- A state with the stack pointer `sp`, the program counter `pc`, the opcode
`op`, and every other member zero. -/
def spState (sp pc op : Nat) : Chip8 :=
  { regState 0 0 0 op with sp := sp, pc := pc }

/-- Running the CALL handler once per opcode of the list, in order: the opcode
is stored in the `opcode` member and `OP_2NNN` runs; a fault ends the run. -/
def callSeq : List Nat → Chip8 → Except Fault Chip8
  | [], s => .ok s
  | op :: ops, s =>
    match OP_2NNN { s with opcode := op } with
    | .ok s1 => callSeq ops s1
    | .error f => .error f

/-- The framebuffer index of column 0 of the sprite row `row`. -/
def pixelBase (xPos yPos row : Nat) : Nat := (yPos + row) * VIDEO_WIDTH + xPos

/-- The test `spritePixel` of the column loop: bit `7 - col` of the sprite byte
is set. -/
def bitSet (spriteByte col : Nat) : Prop := (spriteByte &&& (0x80 >>> col)) % 256 ≠ 0

instance (spriteByte col : Nat) : Decidable (bitSet spriteByte col) := by
  unfold bitSet
  infer_instance

/-- The framebuffer index `i` belongs to one of the `n` columns from `col` on,
counted from the index `base` of column 0, and the sprite bit of its column is
set. -/
def hit (spriteByte base col n i : Nat) : Prop :=
  base + col ≤ i ∧ i < base + col + n ∧ bitSet spriteByte (i - base)

instance (spriteByte base col n i : Nat) : Decidable (hit spriteByte base col n i) := by
  unfold hit
  infer_instance

/-- The handler returned a state within the fuel: it neither faulted nor is it
still in its loop. -/
def returned : Option (Except Fault Chip8) → Bool
  | some (.ok _) => true
  | _ => false

/-- A state with the sprite byte `b` at `memory[0x300]`, `I = 0x300`, the
opcode `op`, all registers zero and the framebuffer all-off. -/
def spriteState (b op : Nat) : Chip8 :=
  { regState 0 0 0 op with memory := fun i => if i = 0x300 then b else 0, index := 0x300 }

/-! ## Basic facts -/

theorem regState_typed {a b f op : Nat} (ha : a < 256) (hb : b < 256) (hf : f < 256)
    (hop : op < 65536) : Typed (regState a b f op) := by
  refine ⟨?_, ?_, ?_, ?_, ?_, ?_, ?_, ?_⟩ <;> simp only [regState] <;> try omega
  intro i
  split_ifs <;> omega

theorem spriteState_typed {b op : Nat} (hb : b < 256) (hop : op < 65536) :
    Typed (spriteState b op) := by
  refine ⟨?_, ?_, ?_, ?_, ?_, ?_, ?_, ?_⟩ <;> simp only [spriteState, regState] <;> try omega
  · intro i
    split_ifs <;> omega
  · intro i
    split_ifs <;> omega

theorem and_255 (n : Nat) : n &&& 0xFF = n % 256 :=
  Nat.and_pow_two_sub_one_eq_mod n 8

theorem selX_lt (op : Nat) : selX op < 16 := by
  unfold selX
  have h : op &&& 0x0F00 ≤ 0x0F00 := Nat.and_le_right
  rw [Nat.shiftRight_eq_div_pow]
  omega

theorem selY_lt (op : Nat) : selY op < 16 := by
  unfold selY
  have h : op &&& 0x00F0 ≤ 0x00F0 := Nat.and_le_right
  rw [Nat.shiftRight_eq_div_pow]
  omega

@[simp] theorem setAt_same (a : Nat → Nat) (i v : Nat) : setAt a i v i = v := by
  simp [setAt]

theorem setAt_other (a : Nat → Nat) {i j : Nat} (v : Nat) (h : j ≠ i) :
    setAt a i v j = a j := by
  simp [setAt, h]

/-! ## C1: ADD Vx, Vy -/

/-- C1, as stated, fails when X = 0xF: with VF = 1 and V0 = 0 the opcode 0x8F04
adds V0 to VF; the sum is 1, not above 255, yet VF ends as 1, because the low
byte of the sum is stored into Vx = VF after the carry flag. -/
theorem C1_add_flag_counterexample :
    Typed (regState 0 0 1 0x8F04) ∧
    selX (regState 0 0 1 0x8F04).opcode = 0xF ∧
    selY (regState 0 0 1 0x8F04).opcode = 0 ∧
    (OP_8XY4 (regState 0 0 1 0x8F04)).registers 0xF = 1 ∧
    ¬ ((OP_8XY4 (regState 0 0 1 0x8F04)).registers 0xF = 1 ↔
        (regState 0 0 1 0x8F04).registers 0xF + (regState 0 0 1 0x8F04).registers 0 > 255) := by
  refine ⟨regState_typed (by omega) (by omega) (by omega) (by omega), ?_, ?_, ?_, ?_⟩ <;> decide

/-- C1, amended: for every typed state, after ADD Vx,Vy (OP_8XY4) the register
Vx holds (Vx + Vy) mod 256 of the pre-state values for every X and Y, and when
X is not 0xF the register VF is 1 if the unsigned sum Vx + Vy exceeds 255 and 0
otherwise. -/
theorem C1_add_carry (s : Chip8) (h : Typed s) :
    (OP_8XY4 s).registers (selX s.opcode)
        = (s.registers (selX s.opcode) + s.registers (selY s.opcode)) % 256 ∧
    (selX s.opcode ≠ 0xF →
      (OP_8XY4 s).registers 0xF
        = if s.registers (selX s.opcode) + s.registers (selY s.opcode) > 255 then 1 else 0) := by
  have hx := h.registers_lt (selX s.opcode)
  have hy := h.registers_lt (selY s.opcode)
  have hsum : (s.registers (selX s.opcode) + s.registers (selY s.opcode)) % 65536
      = s.registers (selX s.opcode) + s.registers (selY s.opcode) := Nat.mod_eq_of_lt (by omega)
  constructor
  · simp only [OP_8XY4, hsum, setAt_same, and_255]
  · intro hne
    simp only [OP_8XY4, hsum]
    rw [setAt_other _ _ (Ne.symm hne)]
    split_ifs <;> simp

/-- C1, amended, at V0 = 200, V1 = 100 with the opcode 0x8014. -/
theorem C1_add_carry_witness :
    Typed (regState 200 100 0 0x8014) ∧
    ((OP_8XY4 (regState 200 100 0 0x8014)).registers (selX (regState 200 100 0 0x8014).opcode)
        = ((regState 200 100 0 0x8014).registers (selX (regState 200 100 0 0x8014).opcode)
            + (regState 200 100 0 0x8014).registers (selY (regState 200 100 0 0x8014).opcode)) % 256 ∧
    (selX (regState 200 100 0 0x8014).opcode ≠ 0xF →
      (OP_8XY4 (regState 200 100 0 0x8014)).registers 0xF
        = if (regState 200 100 0 0x8014).registers (selX (regState 200 100 0 0x8014).opcode)
            + (regState 200 100 0 0x8014).registers (selY (regState 200 100 0 0x8014).opcode) > 255
          then 1 else 0)) :=
  ⟨regState_typed (by omega) (by omega) (by omega) (by omega),
   C1_add_carry _ (regState_typed (by omega) (by omega) (by omega) (by omega))⟩

/-! ## C2: SUB Vx, Vy -/

/-- C2 at equal operands: with V0 = V1 = 5 and the opcode 0x8015 (SUB V0,V1)
there is no borrow, so the not-borrow flag of the claim is 1, but the first
`OP_8XY5` compares with `>` and leaves VF = 0; V0 ends as (5 - 5) mod 256 = 0. -/
theorem C2_sub_equal_operands :
    selX (regState 5 5 0 0x8015).opcode = 0 ∧
    selY (regState 5 5 0 0x8015).opcode = 1 ∧
    (regState 5 5 0 0x8015).registers 0 ≥ (regState 5 5 0 0x8015).registers 1 ∧
    (OP_8XY5 (regState 5 5 0 0x8015)).registers 0xF = 0 ∧
    (OP_8XY5 (regState 5 5 0 0x8015)).registers 0 = 0 := by
  refine ⟨?_, ?_, ?_, ?_, ?_⟩ <;> decide

/-! ## C3: SUBN Vx, Vy -/

/-- C3 at equal operands: with V0 = V1 = 5 and the opcode 0x8017 (SUBN V0,V1)
there is no borrow, so the flag of the claim is 1, but the second `OP_8XY5`
compares with `>` and leaves VF = 0; V0 ends as (5 - 5) mod 256 = 0. -/
theorem C3_subn_equal_operands :
    selX (regState 5 5 0 0x8017).opcode = 0 ∧
    selY (regState 5 5 0 0x8017).opcode = 1 ∧
    (regState 5 5 0 0x8017).registers 1 ≥ (regState 5 5 0 0x8017).registers 0 ∧
    (OP_8XY5_SUBN (regState 5 5 0 0x8017)).registers 0xF = 0 ∧
    (OP_8XY5_SUBN (regState 5 5 0 0x8017)).registers 0 = 0 := by
  refine ⟨?_, ?_, ?_, ?_, ?_⟩ <;> decide

/-! ## C4: SHL Vx -/

/-- C4 at V0 = 0x80 with the opcode 0x800E (SHL V0): bit 7 of V0 is 1, but
`OP_8XYE` computes the flag as `(V0 & 0x1) >> 7`, which is 0; V0 ends as
(2 * 0x80) mod 256 = 0. -/
theorem C4_shl_flag_lost :
    selX (regState 0x80 0 0 0x800E).opcode = 0 ∧
    (regState 0x80 0 0 0x800E).registers 0 / 128 % 2 = 1 ∧
    (OP_8XYE (regState 0x80 0 0 0x800E)).registers 0xF = 0 ∧
    (OP_8XYE (regState 0x80 0 0 0x800E)).registers 0 = 0 := by
  refine ⟨?_, ?_, ?_, ?_⟩ <;> decide

/-! ## C5: SHR Vx -/

/-- C5, as stated, fails when X = 0xF: with VF = 1 and the opcode 0x8F06
(SHR VF) bit 0 of the pre-state Vx is 1, but VF ends as 0, because the flag
written into VF is itself shifted right by the handler's second statement. -/
theorem C5_shr_flag_counterexample :
    Typed (regState 0 0 1 0x8F06) ∧
    selX (regState 0 0 1 0x8F06).opcode = 0xF ∧
    (regState 0 0 1 0x8F06).registers 0xF % 2 = 1 ∧
    (OP_8XY6 (regState 0 0 1 0x8F06)).registers 0xF = 0 ∧
    ¬ ((OP_8XY6 (regState 0 0 1 0x8F06)).registers 0xF
        = (regState 0 0 1 0x8F06).registers (selX (regState 0 0 1 0x8F06).opcode) % 2) := by
  refine ⟨regState_typed (by omega) (by omega) (by omega) (by omega), ?_, ?_, ?_, ?_⟩ <;> decide

/-- C5, amended: for every typed state whose selector X is not 0xF, after
SHR Vx (OP_8XY6) the register VF equals bit 0 of the pre-state Vx and Vx holds
the pre-state Vx divided by 2, rounded down. -/
theorem C5_shr_flag (s : Chip8) (h : Typed s) (hX : selX s.opcode ≠ 0xF) :
    (OP_8XY6 s).registers 0xF = s.registers (selX s.opcode) % 2 ∧
    (OP_8XY6 s).registers (selX s.opcode) = s.registers (selX s.opcode) / 2 := by
  have hx := h.registers_lt (selX s.opcode)
  constructor
  · simp only [OP_8XY6]
    rw [setAt_other _ _ (Ne.symm hX), setAt_same, Nat.and_one_is_mod]
  · simp only [OP_8XY6, setAt_same]
    rw [setAt_other _ _ hX, Nat.shiftRight_eq_div_pow]
    omega

/-- C5, amended, at V0 = 7 with the opcode 0x8006 (SHR V0). -/
theorem C5_shr_flag_witness :
    Typed (regState 7 0 0 0x8006) ∧ selX (regState 7 0 0 0x8006).opcode ≠ 0xF ∧
    (OP_8XY6 (regState 7 0 0 0x8006)).registers 0xF
      = (regState 7 0 0 0x8006).registers (selX (regState 7 0 0 0x8006).opcode) % 2 ∧
    (OP_8XY6 (regState 7 0 0 0x8006)).registers (selX (regState 7 0 0 0x8006).opcode)
      = (regState 7 0 0 0x8006).registers (selX (regState 7 0 0 0x8006).opcode) / 2 :=
  ⟨regState_typed (by omega) (by omega) (by omega) (by omega), by decide,
   C5_shr_flag _ (regState_typed (by omega) (by omega) (by omega) (by omega)) (by decide)⟩

/-! ## C6: CALL followed by RET -/

/-- C6: for every state with SP < 16 and every opcode, CALL (OP_2NNN) returns a
state on which RET (OP_00EE) returns a state whose PC and SP are those of the
state before the CALL. -/
theorem C6_call_ret_roundtrip (s : Chip8) (h : s.sp < 16) :
    ∃ s1 s2, OP_2NNN s = .ok s1 ∧ OP_00EE s1 = .ok s2 ∧ s2.pc = s.pc ∧ s2.sp = s.sp := by
  have h1 : (s.sp + 1) % 256 = s.sp + 1 := Nat.mod_eq_of_lt (by omega)
  have h2 : (s.sp + 1 + 255) % 256 = s.sp := by omega
  have hcall : OP_2NNN s
      = .ok { s with stack := setAt s.stack s.sp s.pc, sp := (s.sp + 1) % 256,
                     pc := (s.opcode &&& 0x0FFF) % 65536 } := if_pos h
  have hret : OP_00EE { s with stack := setAt s.stack s.sp s.pc, sp := (s.sp + 1) % 256,
                               pc := (s.opcode &&& 0x0FFF) % 65536 }
      = .ok { s with stack := setAt s.stack s.sp s.pc, sp := s.sp,
                     pc := setAt s.stack s.sp s.pc s.sp } := by
    simp only [OP_00EE, h1, h2]
    exact if_pos h
  exact ⟨_, _, hcall, hret, setAt_same _ _ _, rfl⟩

/-- C6 at SP = 3, PC = 0x204 with the opcode 0x2ABC. -/
theorem C6_call_ret_roundtrip_witness :
    (spState 3 0x204 0x2ABC).sp < 16 ∧
    ∃ s1 s2, OP_2NNN (spState 3 0x204 0x2ABC) = .ok s1 ∧ OP_00EE s1 = .ok s2 ∧
      s2.pc = (spState 3 0x204 0x2ABC).pc ∧ s2.sp = (spState 3 0x204 0x2ABC).sp :=
  ⟨by decide, C6_call_ret_roundtrip _ (by decide)⟩

/-! ## C7: depth of nested CALLs -/

theorem callSeq_depth (ops : List Nat) : ∀ s : Chip8, s.sp ≤ 16 →
    (s.sp + ops.length ≤ 16 → ∃ s1, callSeq ops s = .ok s1 ∧ s1.sp = s.sp + ops.length) ∧
    (16 < s.sp + ops.length → callSeq ops s = .error (.outOfBounds .stack 16)) := by
  induction ops with
  | nil =>
    intro s hs
    exact ⟨fun _ => ⟨s, rfl, rfl⟩, fun h => absurd h (by simp only [List.length_nil]; omega)⟩
  | cons op ops ih =>
    intro s hs
    simp only [List.length_cons]
    by_cases h16 : s.sp < 16
    · have hcall : OP_2NNN { s with opcode := op }
          = .ok { s with opcode := op, stack := setAt s.stack s.sp s.pc,
                         sp := (s.sp + 1) % 256, pc := (op &&& 0x0FFF) % 65536 } := if_pos h16
      have hsp : (s.sp + 1) % 256 = s.sp + 1 := Nat.mod_eq_of_lt (by omega)
      have ih1 := ih { s with opcode := op, stack := setAt s.stack s.sp s.pc,
                              sp := (s.sp + 1) % 256, pc := (op &&& 0x0FFF) % 65536 }
        (by simp only [hsp]; omega)
      simp only [hsp] at ih1
      simp only [callSeq, hcall, hsp]
      constructor
      · intro hle
        obtain ⟨s1, h1, h2⟩ := ih1.1 (by omega)
        exact ⟨s1, h1, by omega⟩
      · intro hgt
        exact ih1.2 (by omega)
    · have heq : s.sp = 16 := by omega
      have hcall : OP_2NNN { s with opcode := op } = .error (.outOfBounds .stack 16) := by
        simp only [OP_2NNN, STACK_SIZE, heq]
        rfl
      constructor
      · intro hle
        omega
      · intro _
        simp only [callSeq, hcall]

/-- C7, as stated, fails at SP = 16: the CALL handler has no overflow check and
no StackOverflow result; with SP = 16 it runs the store `stack[sp] = pc` at
index 16, outside the 16-entry stack array. -/
theorem C7_call_overflow_counterexample :
    (spState 16 0x204 0x2ABC).sp = 16 ∧
    OP_2NNN (spState 16 0x204 0x2ABC) = .error (.outOfBounds .stack 16) := by
  constructor <;> rfl

/-- C7, amended: starting from SP = 0, every run of at most 16 consecutive CALL
handlers returns a state, with SP equal to the number of CALLs (16 after 16
CALLs, so SP never exceeds 16 in a state returned by a run of CALLs); a run of
more than 16 CALLs does not end in a StackOverflow error: the 17th CALL indexes
`stack[16]`, outside the stack array. -/
theorem C7_call_depth (ops : List Nat) (s : Chip8) (h0 : s.sp = 0) :
    (ops.length ≤ 16 → ∃ s1, callSeq ops s = .ok s1 ∧ s1.sp = ops.length) ∧
    (16 < ops.length → callSeq ops s = .error (.outOfBounds .stack 16)) := by
  have h := callSeq_depth ops s (by omega)
  simp only [h0, Nat.zero_add] at h
  exact h

/-- C7, amended, at a state with SP = 0 and 17 CALLs to 0x300. -/
theorem C7_call_depth_witness :
    (spState 0 0x200 0).sp = 0 ∧
    (((List.replicate 17 0x2300).length ≤ 16 →
        ∃ s1, callSeq (List.replicate 17 0x2300) (spState 0 0x200 0) = .ok s1 ∧
          s1.sp = (List.replicate 17 0x2300).length) ∧
     (16 < (List.replicate 17 0x2300).length →
        callSeq (List.replicate 17 0x2300) (spState 0 0x200 0)
          = .error (.outOfBounds .stack 16))) :=
  ⟨rfl, C7_call_depth _ _ rfl⟩

/-! ## C8: RET on an empty stack -/

/-- C8, as stated, fails: with SP = 0 the RET handler has no underflow check
and no StackUnderflow result; `--sp` wraps the 8-bit SP to 255 and the handler
indexes `stack[255]`, outside the 16-entry stack array. -/
theorem C8_ret_underflow_counterexample :
    (spState 0 0x204 0x00EE).sp = 0 ∧
    OP_00EE (spState 0 0x204 0x00EE) = .error (.outOfBounds .stack 255) := by
  constructor <;> rfl

/-- C8, amended: for every state with SP = 0, the RET handler (OP_00EE) does
not report StackUnderflow: it decrements SP, which wraps to 255, and reads
`stack[255]`, an index outside the 16-entry stack array. -/
theorem C8_ret_empty_stack (s : Chip8) (h : s.sp = 0) :
    OP_00EE s = .error (.outOfBounds .stack 255) := by
  simp only [OP_00EE, h, STACK_SIZE]
  rfl

/-- C8, amended, at a state with SP = 0 and PC = 0x300. -/
theorem C8_ret_empty_stack_witness :
    (spState 0 0x300 0x00EE).sp = 0 ∧
    OP_00EE (spState 0 0x300 0x00EE) = .error (.outOfBounds .stack 255) :=
  ⟨rfl, C8_ret_empty_stack _ rfl⟩

/-! ## The draw loops -/

theorem drawPixel_of_not_bitSet {b col : Nat} (x y row : Nat) (s : Chip8)
    (h : ¬ bitSet b col) : drawPixel b x y row col s = .ok s := by
  unfold bitSet at h
  simp only [drawPixel, h, if_false]

theorem drawPixel_of_bitSet {b col : Nat} (x y row : Nat) (s : Chip8) (h : bitSet b col)
    (hlt : pixelBase x y row + col < 2048) :
    drawPixel b x y row col s
      = .ok { s with
          registers := if s.video (pixelBase x y row + col) = 0xFFFFFFFF
                       then setAt s.registers 0xF 1 else s.registers,
          video := setAt s.video (pixelBase x y row + col)
                     (s.video (pixelBase x y row + col) ^^^ 0xFFFFFFFF) } := by
  have hidx : (y + row) * VIDEO_WIDTH + (x + col) = pixelBase x y row + col :=
    (Nat.add_assoc _ _ _).symm
  have hlt2 : pixelBase x y row + col < VIDEO_WIDTH * VIDEO_HEIGHT := hlt
  unfold bitSet at h
  simp only [drawPixel, hidx, hlt2, if_true]
  exact if_pos h

theorem hit_zero (b base col i : Nat) : ¬ hit b base col 0 i := by
  unfold hit
  omega

theorem hit_succ (b base col n i : Nat) :
    hit b base col (n + 1) i ↔ (i = base + col ∧ bitSet b col) ∨ hit b base (col + 1) n i := by
  unfold hit
  constructor
  · rintro ⟨h1, h2, h3⟩
    by_cases hi : i = base + col
    · left
      refine ⟨hi, ?_⟩
      have : i - base = col := by omega
      rwa [this] at h3
    · right
      exact ⟨by omega, by omega, h3⟩
  · rintro (⟨h1, h2⟩ | ⟨h1, h2, h3⟩)
    · have : i - base = col := by omega
      exact ⟨by omega, by omega, by rwa [this]⟩
    · exact ⟨by omega, by omega, h3⟩

theorem setAt_idem (a : Nat → Nat) (i v : Nat) : setAt (setAt a i v) i v = setAt a i v := by
  funext j
  simp only [setAt]
  split_ifs <;> rfl

theorem colLoop_spec (b x y row : Nat) : ∀ (n col : Nat) (s : Chip8),
    pixelBase x y row + col + n ≤ 2048 →
    ∃ s1, colLoop b x y row n col s = .ok s1 ∧
      s1 = { s with registers := s1.registers, video := s1.video } ∧
      (∀ i, s1.video i = if hit b (pixelBase x y row) col n i
                         then s.video i ^^^ 0xFFFFFFFF else s.video i) ∧
      ((∃ i, hit b (pixelBase x y row) col n i ∧ s.video i = 0xFFFFFFFF) →
        s1.registers = setAt s.registers 0xF 1) ∧
      ((∀ i, hit b (pixelBase x y row) col n i → s.video i ≠ 0xFFFFFFFF) →
        s1.registers = s.registers) := by
  intro n
  induction n with
  | zero =>
    intro col s _
    refine ⟨s, rfl, rfl, ?_, ?_, ?_⟩
    · intro i
      rw [if_neg (hit_zero _ _ _ _)]
    · rintro ⟨i, hi, _⟩
      exact absurd hi (hit_zero _ _ _ _)
    · intro _
      rfl
  | succ n ih =>
    intro col s hb
    by_cases hbit : bitSet b col
    · have hstep := drawPixel_of_bitSet x y row s hbit (by omega)
      obtain ⟨s1, h1, h2, h3, h4, h5⟩ := ih (col + 1) _ (by omega)
      refine ⟨s1, ?_, ?_, ?_, ?_, ?_⟩
      · simp only [colLoop, hstep]
        exact h1
      · rw [h2]
      · intro i
        rw [h3 i]
        simp only [hit_succ b (pixelBase x y row) col n i, hbit, and_true]
        by_cases hi : i = pixelBase x y row + col
        · have hnot : ¬ hit b (pixelBase x y row) (col + 1) n i := by
            unfold hit
            omega
          simp only [hi, setAt_same, hnot, or_false, if_true, if_false]
          rw [if_neg (by rw [← hi]; exact hnot)]
          simp
        · simp only [hi, false_or, setAt_other _ _ hi]
      · rintro ⟨i, hi, hv⟩
        dsimp only at h4 h5
        by_cases hex : ∃ j, hit b (pixelBase x y row) (col + 1) n j ∧ s.video j = 0xFFFFFFFF
        · obtain ⟨j, hj, hvj⟩ := hex
          have hne : j ≠ pixelBase x y row + col := by
            unfold hit at hj
            omega
          rw [h4 ⟨j, hj, by rw [setAt_other _ _ hne]; exact hvj⟩]
          split_ifs
          · exact setAt_idem _ _ _
          · rfl
        · have hi0 : i = pixelBase x y row + col := by
            rcases (hit_succ _ _ _ _ _).1 hi with h | h
            · exact h.1
            · exact absurd ⟨i, h, hv⟩ hex
          rw [h5 (fun j hj => by
            have hne : j ≠ pixelBase x y row + col := by
              unfold hit at hj
              omega
            rw [setAt_other _ _ hne]
            exact fun hvj => hex ⟨j, hj, hvj⟩)]
          rw [← hi0, if_pos hv]
      · intro hall
        dsimp only at h4 h5
        have h0 : s.video (pixelBase x y row + col) ≠ 0xFFFFFFFF :=
          hall _ ((hit_succ _ _ _ _ _).2 (Or.inl ⟨rfl, hbit⟩))
        rw [h5 (fun j hj => by
          have hne : j ≠ pixelBase x y row + col := by
            unfold hit at hj
            omega
          rw [setAt_other _ _ hne]
          exact hall j ((hit_succ _ _ _ _ _).2 (Or.inr hj)))]
        rw [if_neg h0]
    · have hstep := drawPixel_of_not_bitSet x y row s hbit
      obtain ⟨s1, h1, h2, h3, h4, h5⟩ := ih (col + 1) s (by omega)
      have hiff : ∀ i, hit b (pixelBase x y row) (col + 1) n i
          ↔ hit b (pixelBase x y row) col (n + 1) i := by
        intro i
        rw [hit_succ]
        simp only [hbit, and_false, false_or]
      refine ⟨s1, ?_, h2, ?_, ?_, ?_⟩
      · simp only [colLoop, hstep]
        exact h1
      · intro i
        rw [h3 i]
        simp only [hiff]
      · rintro ⟨i, hi, hv⟩
        exact h4 ⟨i, (hiff i).2 hi, hv⟩
      · intro hall
        exact h5 (fun i hi => hall i ((hiff i).1 hi))

theorem drawRow_spec (x y row : Nat) (s : Chip8) (hm : s.index + row < 4096)
    (hv : pixelBase x y row + 8 ≤ 2048) :
    ∃ s1, drawRow x y row s = .ok s1 ∧
      s1 = { s with registers := s1.registers, video := s1.video } ∧
      (∀ i, s1.video i = if hit (s.memory (s.index + row)) (pixelBase x y row) 0 8 i
                         then s.video i ^^^ 0xFFFFFFFF else s.video i) ∧
      ((∃ i, hit (s.memory (s.index + row)) (pixelBase x y row) 0 8 i
          ∧ s.video i = 0xFFFFFFFF) → s1.registers = setAt s.registers 0xF 1) ∧
      ((∀ i, hit (s.memory (s.index + row)) (pixelBase x y row) 0 8 i
          → s.video i ≠ 0xFFFFFFFF) → s1.registers = s.registers) := by
  have hm2 : s.index + row < MEMORY_SIZE := hm
  simp only [drawRow, hm2, if_true]
  exact colLoop_spec _ x y row 8 0 s (by omega)

theorem rowLoop_not_returned (height x y row : Nat) (hrow : row < height) :
    ∀ (fuel : Nat) (s : Chip8), returned (rowLoop height x y fuel row s) = false := by
  intro fuel
  induction fuel with
  | zero => intro s; rfl
  | succ fuel ih =>
    intro s
    simp only [rowLoop, hrow, if_true]
    cases h : drawRow x y row s with
    | ok s1 => exact ih s1
    | error f => rfl

theorem rowLoop_running (height x y row : Nat) (hrow : row < height)
    (hv : pixelBase x y row + 8 ≤ 2048) :
    ∀ (fuel : Nat) (s : Chip8), s.index + row < 4096 →
      rowLoop height x y fuel row s = none := by
  intro fuel
  induction fuel with
  | zero => intro s _; rfl
  | succ fuel ih =>
    intro s hm
    obtain ⟨s1, h1, h2, -⟩ := drawRow_spec x y row s hm hv
    simp only [rowLoop, hrow, if_true, h1]
    apply ih
    rw [h2]
    exact hm

/-! ## C9: CLS followed by DRW -/

/-- C9 on the code: whenever the height N of the opcode is not 0, DRW
(OP_DXYN) run after CLS (OP_00E0) returns no state, whatever the fuel: the row
loop `for (row = 0; row < height; +row)` never advances `row`, so the handler
does not end and VF = 0 is never reported. -/
theorem C9_draw_after_cls_never_returns (s : Chip8) (fuel : Nat)
    (hN : (s.opcode &&& 0x000F) % 256 ≠ 0) :
    returned (OP_DXYN fuel (OP_00E0 s)) = false := by
  unfold OP_DXYN
  exact rowLoop_not_returned _ _ _ 0 (Nat.pos_of_ne_zero hN) fuel _

/-- C9 on the code, at the sprite byte 0x80 with the opcode 0xD011 and the
fuel 1000. -/
theorem C9_draw_after_cls_never_returns_witness :
    ((spriteState 0x80 0xD011).opcode &&& 0x000F) % 256 ≠ 0 ∧
    returned (OP_DXYN 1000 (OP_00E0 (spriteState 0x80 0xD011))) = false :=
  ⟨by decide, C9_draw_after_cls_never_returns _ 1000 (by decide)⟩

/-! ## C10: drawing the same sprite twice -/

set_option maxRecDepth 100000 in
theorem bitSet_of_ne_zero : ∀ b < 256, b ≠ 0 → ∃ c < 8, bitSet b c := by
  unfold bitSet
  decide

theorem hit_exists_iff (b base : Nat) (hb : b < 256) :
    (∃ i, hit b base 0 8 i) ↔ b ≠ 0 := by
  constructor
  · rintro ⟨i, -, -, h3⟩ h0
    unfold bitSet at h3
    rw [h0, Nat.zero_and] at h3
    exact h3 rfl
  · intro h0
    obtain ⟨c, hc, hbit⟩ := bitSet_of_ne_zero b hb h0
    refine ⟨base + c, by omega, by omega, ?_⟩
    rwa [Nat.add_sub_cancel_left]

theorem drawRow_twice (x y row : Nat) (s : Chip8) (hm : s.index + row < 4096)
    (hv : pixelBase x y row + 8 ≤ 2048) (hb : s.memory (s.index + row) < 256)
    (hoff : ∀ i, s.video i = 0) :
    ∃ s1 s2, drawRow x y row s = .ok s1 ∧ drawRow x y row s1 = .ok s2 ∧
      (∀ i, s2.video i = 0) ∧
      s2.registers = (if s.memory (s.index + row) = 0 then s.registers
                      else setAt s.registers 0xF 1) := by
  obtain ⟨s1, h1, h2, h3, -, h5⟩ := drawRow_spec x y row s hm hv
  have hidx : s1.index = s.index := by rw [h2]
  have hmem : s1.memory = s.memory := by rw [h2]
  have hreg1 : s1.registers = s.registers :=
    h5 (fun i _ => by rw [hoff i]; decide)
  obtain ⟨s2, k1, -, k3, k4, k5⟩ := drawRow_spec x y row s1 (by rw [hidx]; exact hm) hv
  rw [hidx, hmem] at k3 k4 k5
  refine ⟨s1, s2, h1, k1, ?_, ?_⟩
  · intro i
    rw [k3 i, h3 i, hoff i]
    split_ifs <;> rfl
  · by_cases h0 : s.memory (s.index + row) = 0
    · rw [if_pos h0, ← hreg1]
      apply k5
      intro i hi
      exact absurd h0 ((hit_exists_iff _ _ hb).1 ⟨i, hi⟩)
    · rw [if_neg h0, ← hreg1]
      apply k4
      obtain ⟨i, hi⟩ := (hit_exists_iff _ (pixelBase x y row) hb).2 h0
      refine ⟨i, hi, ?_⟩
      rw [h3 i, if_pos hi, hoff i]
      rfl

/-- C10, as stated, fails at the sprite byte 0x80 with the opcode 0xD011
(X = 0, Y = 1, N = 1) on an all-off framebuffer: already the first DRW returns
no state, whatever the fuel, because the row loop never advances `row`; and what
the loop runs, two passes of the row body over the same row, turns the pixel on
and off again with VF = 1, not 0, since the second pass collides with the
pixel lit by the first. -/
theorem C10_draw_twice_counterexample :
    (∀ i, (spriteState 0x80 0xD011).video i = 0) ∧
    (¬ ∃ fuel s1, OP_DXYN fuel (spriteState 0x80 0xD011) = some (.ok s1)) ∧
    (∃ s1 s2, drawRow 0 0 0 (spriteState 0x80 0xD011) = .ok s1 ∧
      drawRow 0 0 0 s1 = .ok s2 ∧ (∀ i, s2.video i = 0) ∧ s2.registers 0xF = 1) := by
  refine ⟨fun _ => rfl, ?_, ?_⟩
  · rintro ⟨fuel, s1, h⟩
    have hnone : OP_DXYN fuel (spriteState 0x80 0xD011) = none := by
      unfold OP_DXYN
      exact rowLoop_running _ _ _ 0 (by decide) (by decide) fuel _ (by decide)
    rw [hnone] at h
    cases h
  · obtain ⟨s1, s2, h1, h2, h3, h4⟩ :=
      drawRow_twice 0 0 0 (spriteState 0x80 0xD011) (by decide) (by decide) (by decide)
        (fun _ => rfl)
    refine ⟨s1, s2, h1, h2, h3, ?_⟩
    rw [h4, if_neg (by decide)]
    rfl

/-- C10, amended: starting from an all-off framebuffer, (i) with height N = 0
the DRW handler (OP_DXYN) run twice in a row returns both times and leaves the
framebuffer all-off and VF = 0, for every position; (ii) for every sprite row
inside memory and the framebuffer, two consecutive passes of the handler's row
body leave the framebuffer all-off again, and VF ends as 1 when the sprite byte
is not zero and as it was when the sprite byte is zero. -/
theorem C10_draw_twice (s : Chip8) (hT : Typed s) (hoff : ∀ i, s.video i = 0) :
    ((s.opcode &&& 0x000F) % 256 = 0 → ∀ fuel, ∃ s1 s2,
        OP_DXYN (fuel + 1) s = some (.ok s1) ∧ OP_DXYN (fuel + 1) s1 = some (.ok s2) ∧
        (∀ i, s2.video i = 0) ∧ s2.registers 0xF = 0) ∧
    (∀ x y row, s.index + row < 4096 → pixelBase x y row + 8 ≤ 2048 → ∃ s1 s2,
        drawRow x y row s = .ok s1 ∧ drawRow x y row s1 = .ok s2 ∧
        (∀ i, s2.video i = 0) ∧
        s2.registers 0xF = if s.memory (s.index + row) = 0 then s.registers 0xF else 1) := by
  constructor
  · intro hN fuel
    have hdraw : ∀ t : Chip8, (t.opcode &&& 0x000F) % 256 = 0 →
        OP_DXYN (fuel + 1) t = some (.ok { t with registers := setAt t.registers 0xF 0 }) := by
      intro t ht
      simp only [OP_DXYN, ht, rowLoop, Nat.lt_irrefl, if_false]
    refine ⟨_, _, hdraw s hN, hdraw _ hN, hoff, ?_⟩
    dsimp only
    exact setAt_same _ _ _
  · intro x y row hm hv
    obtain ⟨s1, s2, h1, h2, h3, h4⟩ :=
      drawRow_twice x y row s hm hv (hT.memory_lt _) hoff
    refine ⟨s1, s2, h1, h2, h3, ?_⟩
    rw [h4]
    split_ifs
    · rfl
    · exact setAt_same _ _ _

/-- C10, amended, at the sprite byte 0x80 with the opcode 0xD010. -/
theorem C10_draw_twice_witness :
    Typed (spriteState 0x80 0xD010) ∧ (∀ i, (spriteState 0x80 0xD010).video i = 0) ∧
    (((spriteState 0x80 0xD010).opcode &&& 0x000F) % 256 = 0 → ∀ fuel, ∃ s1 s2,
        OP_DXYN (fuel + 1) (spriteState 0x80 0xD010) = some (.ok s1) ∧
        OP_DXYN (fuel + 1) s1 = some (.ok s2) ∧
        (∀ i, s2.video i = 0) ∧ s2.registers 0xF = 0) ∧
    (∀ x y row, (spriteState 0x80 0xD010).index + row < 4096 →
        pixelBase x y row + 8 ≤ 2048 → ∃ s1 s2,
        drawRow x y row (spriteState 0x80 0xD010) = .ok s1 ∧ drawRow x y row s1 = .ok s2 ∧
        (∀ i, s2.video i = 0) ∧
        s2.registers 0xF = if (spriteState 0x80 0xD010).memory
            ((spriteState 0x80 0xD010).index + row) = 0
          then (spriteState 0x80 0xD010).registers 0xF else 1) :=
  ⟨spriteState_typed (by omega) (by omega), fun _ => rfl,
   C10_draw_twice _ (spriteState_typed (by omega) (by omega)) (fun _ => rfl)⟩

/-! ## C11: SE Vx, byte and SNE Vx, byte -/

theorem spState_typed {sp pc op : Nat} (hsp : sp < 256) (hpc : pc < 65536)
    (hop : op < 65536) : Typed (spState sp pc op) := by
  refine ⟨?_, ?_, ?_, ?_, ?_, ?_, ?_, ?_⟩ <;> simp only [spState, regState] <;> try omega
  intro i
  split_ifs <;> omega

/-- C11, as stated, fails at PC = 0xFFFE: with V0 = 0 and the opcode 0x3000
(SE V0,0x00) the skip is taken, and the 16-bit `pc += 2` wraps to 0 instead of
increasing PC by 2. -/
theorem C11_skip_wrap_counterexample :
    Typed (spState 0 0xFFFE 0x3000) ∧
    (spState 0 0xFFFE 0x3000).registers (selX (spState 0 0xFFFE 0x3000).opcode)
      = ((spState 0 0xFFFE 0x3000).opcode &&& 0x00FF) % 256 ∧
    (OP_3XNN (spState 0 0xFFFE 0x3000)).pc = 0 ∧
    (OP_3XNN (spState 0 0xFFFE 0x3000)).pc ≠ (spState 0 0xFFFE 0x3000).pc + 2 := by
  refine ⟨spState_typed (by omega) (by omega) (by omega), ?_, ?_, ?_⟩ <;> decide

/-- C11, amended: for every state, SE Vx,NN (first OP_3XNN) sets PC to
(PC + 2) mod 65536 when Vx == NN and leaves PC unchanged otherwise, and
SNE Vx,NN (second OP_3XNN) sets PC to (PC + 2) mod 65536 when Vx != NN and
leaves PC unchanged otherwise; when PC + 2 fits in 16 bits exactly one of the
two handlers increases PC, by exactly 2; neither handler changes any member
other than PC. -/
theorem C11_skip_byte (s : Chip8) :
    (s.registers (selX s.opcode) = (s.opcode &&& 0x00FF) % 256 →
      (OP_3XNN s).pc = (s.pc + 2) % 65536 ∧ (OP_3XNN_SNE s).pc = s.pc) ∧
    (s.registers (selX s.opcode) ≠ (s.opcode &&& 0x00FF) % 256 →
      (OP_3XNN s).pc = s.pc ∧ (OP_3XNN_SNE s).pc = (s.pc + 2) % 65536) ∧
    (s.pc + 2 < 65536 →
      ((OP_3XNN s).pc = s.pc + 2 ∧ (OP_3XNN_SNE s).pc = s.pc) ∨
      ((OP_3XNN s).pc = s.pc ∧ (OP_3XNN_SNE s).pc = s.pc + 2)) ∧
    OP_3XNN s = { s with pc := (OP_3XNN s).pc } ∧
    OP_3XNN_SNE s = { s with pc := (OP_3XNN_SNE s).pc } := by
  by_cases h : s.registers (selX s.opcode) = (s.opcode &&& 0x00FF) % 256
  · have h1 : OP_3XNN s = { s with pc := (s.pc + 2) % 65536 } := if_pos h
    have h2 : OP_3XNN_SNE s = s := if_neg (not_not.mpr h)
    refine ⟨fun _ => ⟨by rw [h1], by rw [h2]⟩, fun hne => absurd h hne, ?_, ?_, ?_⟩
    · intro hlt
      left
      rw [h1, h2]
      exact ⟨Nat.mod_eq_of_lt hlt, rfl⟩
    · rw [h1]
    · rw [h2]
  · have h1 : OP_3XNN s = s := if_neg h
    have h2 : OP_3XNN_SNE s = { s with pc := (s.pc + 2) % 65536 } := if_pos h
    refine ⟨fun he => absurd he h, fun _ => ⟨by rw [h1], by rw [h2]⟩, ?_, ?_, ?_⟩
    · intro hlt
      right
      rw [h1, h2]
      exact ⟨rfl, Nat.mod_eq_of_lt hlt⟩
    · rw [h1]
    · rw [h2]

/-! ## C12: the constructed machine -/

theorem storeCharacterset_apply : ∀ (n i : Nat) (m : Nat → Nat) (a : Nat),
    storeCharacterset n i m a
      = if CHARACTERSET_START_ADDRESS + i ≤ a ∧ a < CHARACTERSET_START_ADDRESS + i + n
        then characterset.getD (a - CHARACTERSET_START_ADDRESS) 0 else m a := by
  intro n
  induction n with
  | zero =>
    intro i m a
    have : ¬ (CHARACTERSET_START_ADDRESS + i ≤ a ∧ a < CHARACTERSET_START_ADDRESS + i + 0) := by
      omega
    rw [if_neg this]
    rfl
  | succ n ih =>
    intro i m a
    simp only [storeCharacterset]
    rw [ih]
    by_cases ha : a = CHARACTERSET_START_ADDRESS + i
    · have h1 : ¬ (CHARACTERSET_START_ADDRESS + (i + 1) ≤ a
          ∧ a < CHARACTERSET_START_ADDRESS + (i + 1) + n) := by omega
      have h2 : CHARACTERSET_START_ADDRESS + i ≤ a
          ∧ a < CHARACTERSET_START_ADDRESS + i + (n + 1) := by omega
      rw [if_neg h1, if_pos h2, ha, setAt_same, Nat.add_sub_cancel_left]
    · rw [setAt_other _ _ ha]
      by_cases hr : CHARACTERSET_START_ADDRESS + (i + 1) ≤ a
          ∧ a < CHARACTERSET_START_ADDRESS + (i + 1) + n
      · rw [if_pos hr, if_pos (by omega)]
      · rw [if_neg hr, if_neg (by omega)]

theorem ctor_memory (stack0 : Nat → Nat) (opcode0 a : Nat) :
    (Chip8.Chip8 stack0 opcode0).memory a
      = if 0x50 ≤ a ∧ a < 0xA0 then characterset.getD (a - 0x50) 0 else 0 := by
  show storeCharacterset CHARACTER_SIZE 0 (fun _ => 0) a = _
  rw [storeCharacterset_apply]
  simp only [CHARACTERSET_START_ADDRESS, CHARACTER_SIZE]

/-- C12: the constructed machine has PC = 0x200; the 80 bytes of the glyph
table at memory[0x050 + i], so that byte k of glyph d is at 0x050 + 5*d + k;
every other memory byte 0; all registers 0; I = 0, SP = 0, both timers 0 and
every framebuffer pixel off.  (`stack` and `opcode` are not initialised by the
constructor and are arbitrary here.) -/
theorem C12_constructed_state (stack0 : Nat → Nat) (opcode0 : Nat) :
    (Chip8.Chip8 stack0 opcode0).pc = 0x200 ∧
    characterset.length = 80 ∧
    (∀ i, i < 80 → (Chip8.Chip8 stack0 opcode0).memory (0x050 + i) = characterset.getD i 0) ∧
    (∀ d k, d < 16 → k < 5 →
      (Chip8.Chip8 stack0 opcode0).memory (0x050 + 5 * d + k) = characterset.getD (5 * d + k) 0) ∧
    (∀ a, a < 0x050 ∨ 0x0A0 ≤ a → (Chip8.Chip8 stack0 opcode0).memory a = 0) ∧
    (∀ i, (Chip8.Chip8 stack0 opcode0).registers i = 0) ∧
    (Chip8.Chip8 stack0 opcode0).index = 0 ∧
    (Chip8.Chip8 stack0 opcode0).sp = 0 ∧
    (Chip8.Chip8 stack0 opcode0).delayTimer = 0 ∧
    (Chip8.Chip8 stack0 opcode0).soundTimer = 0 ∧
    (∀ i, (Chip8.Chip8 stack0 opcode0).video i = 0) := by
  refine ⟨rfl, rfl, ?_, ?_, ?_, fun _ => rfl, rfl, rfl, rfl, rfl, fun _ => rfl⟩
  · intro i hi
    rw [ctor_memory, if_pos (by omega), Nat.add_sub_cancel_left]
  · intro d k hd hk
    rw [ctor_memory, if_pos (by omega)]
    congr 1
    omega
  · intro a ha
    rw [ctor_memory, if_neg (by omega)]

/-! ## C13, C14: the copy loop of LoadROM -/

theorem romLoop_ok (buffer : List Nat) : ∀ (n i : Nat) (m : Nat → Nat),
    FREE_START_ADDRESS + i + n ≤ 4096 →
    ∃ m1, romLoop buffer n i m = .ok m1 ∧
      ∀ a, m1 a = if FREE_START_ADDRESS + i ≤ a ∧ a < FREE_START_ADDRESS + i + n
                  then buffer.getD (a - FREE_START_ADDRESS) 0 % 256 else m a := by
  intro n
  induction n with
  | zero =>
    intro i m _
    refine ⟨m, rfl, fun a => ?_⟩
    rw [if_neg (by omega)]
  | succ n ih =>
    intro i m hb
    have hlt : FREE_START_ADDRESS + i < MEMORY_SIZE := by
      show FREE_START_ADDRESS + i < 4096
      omega
    obtain ⟨m1, h1, h2⟩ := ih (i + 1)
      (setAt m (FREE_START_ADDRESS + i) (buffer.getD i 0 % 256)) (by omega)
    refine ⟨m1, ?_, fun a => ?_⟩
    · simp only [romLoop, hlt, if_true]
      exact h1
    · rw [h2 a]
      by_cases ha : a = FREE_START_ADDRESS + i
      · rw [if_neg (by omega), if_pos (by omega), ha, setAt_same, Nat.add_sub_cancel_left]
      · rw [setAt_other _ _ ha]
        by_cases hr : FREE_START_ADDRESS + (i + 1) ≤ a ∧ a < FREE_START_ADDRESS + (i + 1) + n
        · rw [if_pos hr, if_pos (by omega)]
        · rw [if_neg hr, if_neg (by omega)]

theorem romLoop_fault (buffer : List Nat) : ∀ (n i : Nat) (m : Nat → Nat),
    FREE_START_ADDRESS + i ≤ 4096 → 4096 < FREE_START_ADDRESS + i + n →
    romLoop buffer n i m = .error (.outOfBounds .memory 4096) := by
  intro n
  induction n with
  | zero =>
    intro i m h1 h2
    omega
  | succ n ih =>
    intro i m h1 h2
    by_cases hlt : FREE_START_ADDRESS + i < 4096
    · have hlt2 : FREE_START_ADDRESS + i < MEMORY_SIZE := hlt
      simp only [romLoop, hlt2, if_true]
      exact ih (i + 1) _ (by omega) (by omega)
    · have heq : FREE_START_ADDRESS + i = 4096 := by omega
      have hnlt : ¬ FREE_START_ADDRESS + i < MEMORY_SIZE := hlt
      simp only [romLoop]
      rw [if_neg hnlt, heq]

theorem romLoop_split (buffer : List Nat) : ∀ (n1 n2 i : Nat) (m : Nat → Nat),
    romLoop buffer (n1 + n2) i m
      = match romLoop buffer n1 i m with
        | .ok m1 => romLoop buffer n2 (i + n1) m1
        | .error f => .error f := by
  intro n1
  induction n1 with
  | zero =>
    intro n2 i m
    simp only [Nat.zero_add, romLoop, Nat.add_zero]
  | succ n1 ih =>
    intro n2 i m
    have hshape : n1 + 1 + n2 = (n1 + n2) + 1 := by omega
    rw [hshape]
    by_cases hlt : FREE_START_ADDRESS + i < MEMORY_SIZE
    · simp only [romLoop, hlt, if_true]
      rw [ih]
      have hidx : i + 1 + n1 = i + (n1 + 1) := by omega
      rw [hidx]
    · simp only [romLoop, hlt, if_false]

theorem getD_lt_of_bytes {buffer : List Nat} (hbytes : ∀ b ∈ buffer, b < 256) {i : Nat}
    (hi : i < buffer.length) : buffer.getD i 0 % 256 = buffer.getD i 0 := by
  apply Nat.mod_eq_of_lt
  rw [List.getD_eq_getElem _ _ hi]
  exact hbytes _ (List.getElem_mem _)

/-- C13: for every byte sequence of length L ≤ 3584, `LoadROM` returns a state
whose memory[0x200 + i] is byte i for every i < L, whose other memory bytes
(below 0x200, the font table included, and from 0x200 + L on) are unchanged,
and whose other members are unchanged; with L = 0 the state is unchanged. -/
theorem C13_load_copies (buffer : List Nat) (s : Chip8) (hlen : buffer.length ≤ 3584)
    (hbytes : ∀ b ∈ buffer, b < 256) :
    ∃ s1, LoadROM (some buffer) s = .ok s1 ∧
      (∀ i, i < buffer.length → s1.memory (0x200 + i) = buffer.getD i 0) ∧
      (∀ a, a < 0x200 ∨ 0x200 + buffer.length ≤ a → s1.memory a = s.memory a) ∧
      s1 = { s with memory := s1.memory } ∧
      (buffer.length = 0 → s1 = s) := by
  obtain ⟨m1, h1, h2⟩ := romLoop_ok buffer buffer.length 0 s.memory
    (by simp only [FREE_START_ADDRESS]; omega)
  simp only [FREE_START_ADDRESS, Nat.add_zero] at h2
  refine ⟨{ s with memory := m1 }, ?_, ?_, ?_, rfl, ?_⟩
  · simp only [LoadROM, h1]
  · intro i hi
    show m1 (0x200 + i) = _
    rw [h2, if_pos (by omega), Nat.add_sub_cancel_left]
    exact getD_lt_of_bytes hbytes hi
  · intro a ha
    show m1 a = _
    rw [h2, if_neg (by omega)]
  · intro h0
    have hm : m1 = s.memory := by
      funext a
      rw [h2, if_neg (by omega)]
    rw [hm]

/-- C13 at the program of the scenario, loaded into the constructed machine. -/
theorem C13_load_copies_witness :
    [0x00, 0xE0, 0x60, 0x0A, 0x61, 0x05, 0x50, 0x10].length ≤ 3584 ∧
    (∀ b ∈ [0x00, 0xE0, 0x60, 0x0A, 0x61, 0x05, 0x50, 0x10], b < 256) ∧
    ∃ s1, LoadROM (some [0x00, 0xE0, 0x60, 0x0A, 0x61, 0x05, 0x50, 0x10])
        (Chip8.Chip8 (fun _ => 0) 0) = .ok s1 ∧
      (∀ i, i < [0x00, 0xE0, 0x60, 0x0A, 0x61, 0x05, 0x50, 0x10].length →
        s1.memory (0x200 + i) = [0x00, 0xE0, 0x60, 0x0A, 0x61, 0x05, 0x50, 0x10].getD i 0) ∧
      (∀ a, a < 0x200 ∨ 0x200 + [0x00, 0xE0, 0x60, 0x0A, 0x61, 0x05, 0x50, 0x10].length ≤ a →
        s1.memory a = (Chip8.Chip8 (fun _ => 0) 0).memory a) ∧
      s1 = { Chip8.Chip8 (fun _ => 0) 0 with memory := s1.memory } ∧
      ([0x00, 0xE0, 0x60, 0x0A, 0x61, 0x05, 0x50, 0x10].length = 0 →
        s1 = Chip8.Chip8 (fun _ => 0) 0) :=
  ⟨by decide, by decide, C13_load_copies _ _ (by decide) (by decide)⟩

/-- C14, as stated, fails for a sequence of 3585 bytes 0xAA: `LoadROM` has no
size check and no ImageTooLarge result; its copy loop first writes 3584 bytes
(memory[0x200] changes from 0 to 0xAA) and the pass that is left then stores to
memory[4096], outside the memory array. -/
theorem C14_load_too_large_counterexample :
    (List.replicate 3585 0xAA).length = 3585 ∧
    LoadROM (some (List.replicate 3585 0xAA)) (regState 0 0 0 0)
      = .error (.outOfBounds .memory 4096) ∧
    (regState 0 0 0 0).memory 0x200 = 0 ∧
    ∃ m1, romLoop (List.replicate 3585 0xAA) 3584 0 (regState 0 0 0 0).memory = .ok m1 ∧
      m1 0x200 = 0xAA ∧
      romLoop (List.replicate 3585 0xAA) 3585 0 (regState 0 0 0 0).memory
        = romLoop (List.replicate 3585 0xAA) 1 3584 m1 := by
  have hlen : (List.replicate 3585 0xAA).length = 3585 := List.length_replicate _ _
  refine ⟨hlen, ?_, rfl, ?_⟩
  · simp only [LoadROM, hlen]
    rw [romLoop_fault _ 3585 0 _ (by simp only [FREE_START_ADDRESS]; omega)
      (by simp only [FREE_START_ADDRESS]; omega)]
  · obtain ⟨m1, h1, h2⟩ := romLoop_ok (List.replicate 3585 0xAA) 3584 0
      (regState 0 0 0 0).memory (by simp only [FREE_START_ADDRESS]; omega)
    refine ⟨m1, h1, ?_, ?_⟩
    · rw [h2, if_pos (by simp only [FREE_START_ADDRESS]; omega)]
      rfl
    · have hs := romLoop_split (List.replicate 3585 0xAA) 3584 1 0 (regState 0 0 0 0).memory
      rw [h1] at hs
      exact hs

/-- C14, amended: for every byte sequence longer than 3584, `LoadROM` does not
report ImageTooLarge: its copy loop stores bytes 0..3583 of the sequence to
memory[0x200..0xFFF], so that each of these memory bytes that differs from the
byte of the sequence is modified, leaves the memory below 0x200 unchanged, and
the passes that are left then end in a store to memory[4096], outside the
memory array. -/
theorem C14_load_too_large (buffer : List Nat) (s : Chip8) (hlen : 3584 < buffer.length) :
    LoadROM (some buffer) s = .error (.outOfBounds .memory 4096) ∧
    ∃ m1, romLoop buffer 3584 0 s.memory = .ok m1 ∧
      (∀ i, i < 3584 → m1 (0x200 + i) = buffer.getD i 0 % 256) ∧
      (∀ i, i < 3584 → s.memory (0x200 + i) ≠ buffer.getD i 0 % 256 →
        m1 (0x200 + i) ≠ s.memory (0x200 + i)) ∧
      (∀ a, a < 0x200 → m1 a = s.memory a) ∧
      romLoop buffer buffer.length 0 s.memory
        = romLoop buffer (buffer.length - 3584) 3584 m1 ∧
      romLoop buffer (buffer.length - 3584) 3584 m1 = .error (.outOfBounds .memory 4096) := by
  have hfault : romLoop buffer buffer.length 0 s.memory = .error (.outOfBounds .memory 4096) :=
    romLoop_fault buffer buffer.length 0 s.memory (by simp only [FREE_START_ADDRESS]; omega)
      (by simp only [FREE_START_ADDRESS]; omega)
  obtain ⟨m1, h1, h2⟩ := romLoop_ok buffer 3584 0 s.memory
    (by simp only [FREE_START_ADDRESS]; omega)
  simp only [FREE_START_ADDRESS, Nat.add_zero] at h2
  have hs := romLoop_split buffer 3584 (buffer.length - 3584) 0 s.memory
  rw [h1] at hs
  have hsum : 3584 + (buffer.length - 3584) = buffer.length := by omega
  rw [hsum] at hs
  simp only [Nat.zero_add] at hs
  refine ⟨?_, m1, h1, ?_, ?_, ?_, hs, ?_⟩
  · simp only [LoadROM, hfault]
  · intro i hi
    rw [h2, if_pos (by omega), Nat.add_sub_cancel_left]
  · intro i hi hne
    rw [h2, if_pos (by omega), Nat.add_sub_cancel_left]
    exact fun h => hne h.symm
  · intro a ha
    rw [h2, if_neg (by omega)]
  · rw [← hs]
    exact hfault

/-- C14, amended, at a sequence of 3585 bytes 0x11. -/
theorem C14_load_too_large_witness :
    3584 < (List.replicate 3585 0x11).length ∧
    (LoadROM (some (List.replicate 3585 0x11)) (regState 0 0 0 0)
      = .error (.outOfBounds .memory 4096) ∧
    ∃ m1, romLoop (List.replicate 3585 0x11) 3584 0 (regState 0 0 0 0).memory = .ok m1 ∧
      (∀ i, i < 3584 → m1 (0x200 + i) = (List.replicate 3585 0x11).getD i 0 % 256) ∧
      (∀ i, i < 3584 →
        (regState 0 0 0 0).memory (0x200 + i) ≠ (List.replicate 3585 0x11).getD i 0 % 256 →
        m1 (0x200 + i) ≠ (regState 0 0 0 0).memory (0x200 + i)) ∧
      (∀ a, a < 0x200 → m1 a = (regState 0 0 0 0).memory a) ∧
      romLoop (List.replicate 3585 0x11) (List.replicate 3585 0x11).length 0
          (regState 0 0 0 0).memory
        = romLoop (List.replicate 3585 0x11) ((List.replicate 3585 0x11).length - 3584) 3584 m1 ∧
      romLoop (List.replicate 3585 0x11) ((List.replicate 3585 0x11).length - 3584) 3584 m1
        = .error (.outOfBounds .memory 4096)) :=
  ⟨by rw [List.length_replicate]; omega,
   C14_load_too_large _ _ (by rw [List.length_replicate]; omega)⟩

/-! ## C15: parity of PC -/

theorem and_4095 (n : Nat) : n &&& 0x0FFF = n % 4096 :=
  Nat.and_pow_two_sub_one_eq_mod n 12

/-- C15, as stated, fails for JP NNN with an odd target: from the even
PC = 0x200 the opcode 0x1201 sets PC = 0x201. -/
theorem C15_jump_odd_counterexample :
    (spState 0 0x200 0x1201).pc % 2 = 0 ∧
    (OP_1NNN (spState 0 0x200 0x1201)).pc = 0x201 ∧
    (OP_1NNN (spState 0 0x200 0x1201)).pc % 2 = 1 := by
  refine ⟨?_, ?_, ?_⟩ <;> decide

/-- C15, amended: PC is even after construction (0x200), and the skip handlers
(SE/SNE Vx,NN and SE/SNE Vx,Vy) map a state with even PC to a state with even
PC; JP NNN and CALL NNN set PC to NNN, JP V0,NNN sets it to V0 + NNN and RET to
the stack entry it pops, so after them PC is even exactly when NNN, V0 + NNN or
that entry is even; CALL pushes the PC it finds. -/
theorem C15_pc_parity (s : Chip8) (stack0 : Nat → Nat) (opcode0 : Nat) :
    (Chip8.Chip8 stack0 opcode0).pc % 2 = 0 ∧
    (s.pc % 2 = 0 →
      (OP_3XNN s).pc % 2 = 0 ∧ (OP_3XNN_SNE s).pc % 2 = 0 ∧
      (OP_5XY0 s).pc % 2 = 0 ∧ (OP_9XY0 s).pc % 2 = 0) ∧
    (OP_1NNN s).pc % 2 = s.opcode % 2 ∧
    (∀ s1, OP_2NNN s = .ok s1 → s1.pc % 2 = s.opcode % 2 ∧ s1.stack s.sp = s.pc) ∧
    (OP_BNNN s).pc % 2 = (s.registers 0 + s.opcode) % 2 ∧
    (∀ s1, OP_00EE s = .ok s1 → s1.pc = s.stack s1.sp) := by
  have hskip : ∀ {c : Prop} [Decidable c], s.pc % 2 = 0 →
      (if c then { s with pc := (s.pc + 2) % 65536 } else s).pc % 2 = 0 := by
    intro c _ h
    split_ifs
    · show (s.pc + 2) % 65536 % 2 = 0
      omega
    · exact h
  refine ⟨?_, fun h => ⟨hskip h, hskip h, hskip h, hskip h⟩, ?_, ?_, ?_, ?_⟩
  · show FREE_START_ADDRESS % 2 = 0
    rfl
  · show (s.opcode &&& 0x0FFF) % 65536 % 2 = s.opcode % 2
    rw [and_4095]
    omega
  · intro s1 h
    unfold OP_2NNN at h
    split_ifs at h
    cases h
    refine ⟨?_, setAt_same _ _ _⟩
    show (s.opcode &&& 0x0FFF) % 65536 % 2 = s.opcode % 2
    rw [and_4095]
    omega
  · show (s.registers 0 + (s.opcode &&& 0x0FFF) % 65536) % 65536 % 2 = _
    rw [and_4095]
    omega
  · intro s1 h
    simp only [OP_00EE] at h
    split_ifs at h
    cases h
    rfl

/-! ## C16: the keypad -/

/-- C16 on the code: `KEYS` is 14, so the `keypad` array has 14 entries and
the key indices 0xE and 0xF are outside it. -/
theorem C16_keypad_entries :
    KEYS = 14 ∧ ¬ (0xE < KEYS) ∧ ¬ (0xF < KEYS) ∧ REGISTER_AMT = 16 := by
  refine ⟨rfl, ?_, ?_, rfl⟩ <;> decide

/-! ## C17: the four-instruction scenario -/

/-- The fetch stage of `step`, with the opcode and the advanced PC evaluated. -/
theorem step_fetch (fuel : Nat) (s : Chip8) {a hi lo op a2 : Nat} (hpc : s.pc = a)
    (ha : a + 1 < MEMORY_SIZE) (hhi : s.memory a = hi) (hlo : s.memory (a + 1) = lo)
    (hop : ((hi <<< 8) ||| lo) % 65536 = op) (ha2 : (a + 2) % 65536 = a2) :
    step fuel s = execute fuel { s with opcode := op, pc := a2 } := by
  subst hpc hhi hlo hop ha2
  simp only [step]
  rw [if_pos ha]

theorem execute_cls (fuel : Nat) (s : Chip8) (h : s.opcode = 0x00E0) :
    execute fuel s = .ok (OP_00E0 s) := by
  simp only [execute, h]
  rfl

theorem execute_ld (fuel : Nat) (s : Chip8) (op : Nat) (hop : s.opcode = op)
    (h : op >>> 12 = 6) : execute fuel s = .ok (OP_6XNN s) := by
  subst hop
  simp only [execute, h]

theorem execute_se (fuel : Nat) (s : Chip8) (op : Nat) (hop : s.opcode = op)
    (h : op >>> 12 = 5) (h0 : op &&& 0x000F = 0) : execute fuel s = .ok (OP_5XY0 s) := by
  subst hop
  simp only [execute, h]
  exact if_pos h0

theorem steps_succ (fuel n : Nat) (s s1 : Chip8) (h : step fuel s = .ok s1) :
    steps fuel (n + 1) s = steps fuel n s1 := by
  simp only [steps, h]

theorem scenario_run (fuel : Nat) (s : Chip8) (hpc : s.pc = 0x200)
    (h0 : s.memory 0x200 = 0x00) (h1 : s.memory 0x201 = 0xE0)
    (h2 : s.memory 0x202 = 0x60) (h3 : s.memory 0x203 = 0x0A)
    (h4 : s.memory 0x204 = 0x61) (h5 : s.memory 0x205 = 0x05)
    (h6 : s.memory 0x206 = 0x50) (h7 : s.memory 0x207 = 0x10) :
    ∃ s4, steps fuel 4 s = .ok s4 ∧ s4.registers 0 = 0x0A ∧ s4.registers 1 = 0x05 ∧
      s4.pc = 0x208 ∧ s4.opcode = 0x5010 ∧ (∀ i, i < 2048 → s4.video i = 0) ∧
      (∀ i, 2048 ≤ i → s4.video i = s.video i) := by
  obtain ⟨s1, hs1⟩ : ∃ s1, s1 = OP_00E0 { s with opcode := 0x00E0, pc := 0x202 } := ⟨_, rfl⟩
  have e1 : step fuel s = .ok s1 := by
    rw [hs1, step_fetch fuel s hpc (by decide) h0 h1 rfl rfl]
    exact execute_cls _ _ rfl
  have p1 : s1.pc = 0x202 := by rw [hs1]; rfl
  have m1 : s1.memory = s.memory := by rw [hs1]; rfl
  have h2a : s1.memory 0x202 = 0x60 := by rw [m1]; exact h2
  have h3a : s1.memory (0x202 + 1) = 0x0A := by rw [m1]; exact h3
  obtain ⟨s2, hs2⟩ : ∃ s2, s2 = OP_6XNN { s1 with opcode := 0x600A, pc := 0x204 } := ⟨_, rfl⟩
  have e2 : step fuel s1 = .ok s2 := by
    rw [hs2, step_fetch fuel s1 p1 (by decide) h2a h3a rfl rfl]
    exact execute_ld _ _ 0x600A rfl (by decide)
  have p2 : s2.pc = 0x204 := by rw [hs2]; rfl
  have m2 : s2.memory = s.memory := by rw [hs2, ← m1]; rfl
  have h4a : s2.memory 0x204 = 0x61 := by rw [m2]; exact h4
  have h5a : s2.memory (0x204 + 1) = 0x05 := by rw [m2]; exact h5
  obtain ⟨s3, hs3⟩ : ∃ s3, s3 = OP_6XNN { s2 with opcode := 0x6105, pc := 0x206 } := ⟨_, rfl⟩
  have e3 : step fuel s2 = .ok s3 := by
    rw [hs3, step_fetch fuel s2 p2 (by decide) h4a h5a rfl rfl]
    exact execute_ld _ _ 0x6105 rfl (by decide)
  have p3 : s3.pc = 0x206 := by rw [hs3]; rfl
  have m3 : s3.memory = s.memory := by rw [hs3, ← m2]; rfl
  have h6a : s3.memory 0x206 = 0x50 := by rw [m3]; exact h6
  have h7a : s3.memory (0x206 + 1) = 0x10 := by rw [m3]; exact h7
  obtain ⟨s4, hs4⟩ : ∃ s4, s4 = OP_5XY0 { s3 with opcode := 0x5010, pc := 0x208 } := ⟨_, rfl⟩
  have e4 : step fuel s3 = .ok s4 := by
    rw [hs4, step_fetch fuel s3 p3 (by decide) h6a h7a rfl rfl]
    exact execute_se _ _ 0x5010 rfl (by decide) (by decide)
  have hx0 : selX 0x600A = 0 := by decide
  have hx1 : selX 0x6105 = 1 := by decide
  have hx5 : selX 0x5010 = 0 := by decide
  have hy5 : selY 0x5010 = 1 := by decide
  have hb0 : (0x600A &&& 0x00FF) % 256 = 0x0A := by decide
  have hb1 : (0x6105 &&& 0x00FF) % 256 = 0x05 := by decide
  have r1 : s1.registers = s.registers := by rw [hs1]; rfl
  have r2 : s2.registers = setAt s.registers 0 0x0A := by
    rw [hs2, ← r1, ← hx0, ← hb0]; rfl
  have r3 : s3.registers = setAt (setAt s.registers 0 0x0A) 1 0x05 := by
    rw [hs3, ← r2, ← hx1, ← hb1]; rfl
  have v1 : s1.video = fun i => if i < VIDEO_WIDTH * VIDEO_HEIGHT then 0 else s.video i := by
    rw [hs1]; rfl
  have v2 : s2.video = s1.video := by rw [hs2]; rfl
  have v3 : s3.video = s2.video := by rw [hs3]; rfl
  have hne : s3.registers (selX 0x5010) ≠ s3.registers (selY 0x5010) := by
    rw [hx5, hy5, r3, setAt_same, setAt_other _ _ (by decide), setAt_same]
    decide
  have e5 : s4 = { s3 with opcode := 0x5010, pc := 0x208 } := by
    rw [hs4]; exact if_neg hne
  refine ⟨s4, ?_, ?_, ?_, ?_, ?_, ?_, ?_⟩
  · rw [steps_succ fuel 3 _ _ e1, steps_succ fuel 2 _ _ e2, steps_succ fuel 1 _ _ e3,
      steps_succ fuel 0 _ _ e4]
    rfl
  · rw [e5]
    show s3.registers 0 = 0x0A
    rw [r3, setAt_other _ _ (by decide), setAt_same]
  · rw [e5]
    show s3.registers 1 = 0x05
    rw [r3, setAt_same]
  · rw [e5]
  · rw [e5]
  · intro i hi
    rw [e5]
    show s3.video i = 0
    rw [v3, v2, v1]
    exact if_pos hi
  · intro i hi
    rw [e5]
    show s3.video i = s.video i
    rw [v3, v2, v1]
    exact if_neg (by show ¬ i < 2048; omega)

/-- C17, as stated, fails on the PC: on the constructed machine loaded with
the program, each of the 4 cycles advances PC by 2 and the final SE V0,V1 does
not skip, so PC ends at 0x208, an advance of 8 from 0x200, not of 6. -/
theorem C17_scenario_pc_counterexample :
    ∃ sL s4, LoadROM (some [0x00, 0xE0, 0x60, 0x0A, 0x61, 0x05, 0x50, 0x10])
        (Chip8.Chip8 (fun _ => 0) 0) = .ok sL ∧
      steps 0 4 sL = .ok s4 ∧ s4.pc = 0x208 ∧ s4.pc ≠ 0x200 + 6 :=
  ⟨_, _, rfl, rfl, rfl, by decide⟩

/-- C17, amended: on the constructed machine loaded with the program bytes
[0x00,0xE0, 0x60,0x0A, 0x61,0x05, 0x50,0x10], 4 cycles of `step` succeed and
end with V0 = 0x0A, V1 = 0x05, PC = 0x208 (advanced by 8 from 0x200: 2 per
cycle, the final SE V0,V1 does not skip), the opcode of the last cycle 0x5010
and every framebuffer pixel off. -/
theorem C17_scenario (stack0 : Nat → Nat) (opcode0 fuel : Nat) :
    ∃ sL s4, LoadROM (some [0x00, 0xE0, 0x60, 0x0A, 0x61, 0x05, 0x50, 0x10])
        (Chip8.Chip8 stack0 opcode0) = .ok sL ∧
      steps fuel 4 sL = .ok s4 ∧
      s4.registers 0 = 0x0A ∧ s4.registers 1 = 0x05 ∧ s4.pc = 0x200 + 8 ∧
      s4.opcode = 0x5010 ∧ (∀ i, s4.video i = 0) := by
  obtain ⟨sL, hL, hpc, hv, h0, h1, h2, h3, h4, h5, h6, h7⟩ :
      ∃ sL, LoadROM (some [0x00, 0xE0, 0x60, 0x0A, 0x61, 0x05, 0x50, 0x10])
          (Chip8.Chip8 stack0 opcode0) = .ok sL ∧ sL.pc = 0x200 ∧
        sL.video = (fun _ => 0) ∧
        sL.memory 0x200 = 0x00 ∧ sL.memory 0x201 = 0xE0 ∧
        sL.memory 0x202 = 0x60 ∧ sL.memory 0x203 = 0x0A ∧
        sL.memory 0x204 = 0x61 ∧ sL.memory 0x205 = 0x05 ∧
        sL.memory 0x206 = 0x50 ∧ sL.memory 0x207 = 0x10 :=
    ⟨_, rfl, rfl, rfl, rfl, rfl, rfl, rfl, rfl, rfl, rfl, rfl⟩
  obtain ⟨s4, hrun, hr0, hr1, hp, ho, hv1, hv2⟩ :=
    scenario_run fuel sL hpc h0 h1 h2 h3 h4 h5 h6 h7
  refine ⟨sL, s4, hL, hrun, hr0, hr1, hp, ho, fun i => ?_⟩
  by_cases hi : i < 2048
  · exact hv1 i hi
  · rw [hv2 i (by omega), hv]

/-! ## C18: the row loop of DRW -/

/-- C18 on the code: whenever the height N of the opcode is not 0, DRW
(OP_DXYN) returns no state, whatever the fuel: the third clause of the row loop
is `+row`, so `row` stays 0 and the condition `row < height` never fails; and
when the sprite row is inside memory (I < 4096) and the wrapped column is at
most 56, the handler does not fault either: it is still in the loop at row 0
when the fuel is spent. -/
theorem C18_draw_row_loop_never_ends (s : Chip8)
    (hN : (s.opcode &&& 0x000F) % 256 ≠ 0) :
    ∀ fuel, returned (OP_DXYN fuel s) = false ∧
      (s.index < 4096 → (s.registers (selX s.opcode) % VIDEO_WIDTH) % 256 ≤ 56 →
        OP_DXYN fuel s = none) := by
  intro fuel
  refine ⟨?_, fun hI hx => ?_⟩
  · unfold OP_DXYN
    exact rowLoop_not_returned _ _ _ 0 (Nat.pos_of_ne_zero hN) fuel _
  · unfold OP_DXYN
    have hy : (s.registers (selY s.opcode) % VIDEO_HEIGHT) % 256 ≤ 31 := by
      have : s.registers (selY s.opcode) % VIDEO_HEIGHT < 32 := Nat.mod_lt _ (by decide)
      have := Nat.mod_le (s.registers (selY s.opcode) % VIDEO_HEIGHT) 256
      omega
    refine rowLoop_running _ _ _ 0 (Nat.pos_of_ne_zero hN) ?_ fuel _ hI
    unfold pixelBase
    simp only [VIDEO_WIDTH] at hx ⊢
    omega

/-- C18 on the code, at a 5-row sprite: the opcode 0xD015 on the state with
the sprite byte 0xFF at I = 0x300 and all registers zero. -/
theorem C18_draw_row_loop_never_ends_witness :
    ((spriteState 0xFF 0xD015).opcode &&& 0x000F) % 256 ≠ 0 ∧
    ∀ fuel, returned (OP_DXYN fuel (spriteState 0xFF 0xD015)) = false ∧
      ((spriteState 0xFF 0xD015).index < 4096 →
        ((spriteState 0xFF 0xD015).registers (selX (spriteState 0xFF 0xD015).opcode)
          % VIDEO_WIDTH) % 256 ≤ 56 →
        OP_DXYN fuel (spriteState 0xFF 0xD015) = none) :=
  ⟨by decide, C18_draw_row_loop_never_ends _ (by decide)⟩

/-! ## C19: pixels are fully off or fully on -/

theorem rowLoop_fault_memory (height x y row : Nat) (hv : pixelBase x y row + 8 ≤ 2048) :
    ∀ (fuel : Nat) (s : Chip8) (f : Fault),
      rowLoop height x y fuel row s = some (.error f) →
      f = .outOfBounds .memory (s.index + row) := by
  intro fuel
  induction fuel with
  | zero =>
    intro s f he
    cases he
  | succ fuel ih =>
    intro s f he
    simp only [rowLoop] at he
    split_ifs at he
    · by_cases hm : s.index + row < 4096
      · obtain ⟨s1, h1, h2, -⟩ := drawRow_spec x y row s hm hv
        rw [h1] at he
        have hf := ih s1 f he
        rw [h2] at hf
        exact hf
      · have hr : drawRow x y row s = .error (.outOfBounds .memory (s.index + row)) := by
          have hm2 : ¬ s.index + row < MEMORY_SIZE := hm
          simp only [drawRow]
          rw [if_neg hm2]
        rw [hr] at he
        cases he
        rfl
    · cases he

/-- C20: when the wrapped column xPos = Vx mod 64 is at most 56 and the
wrapped row yPos = Vy mod 32 has yPos + N ≤ 32, then for every sprite row
below N and every column below 8 the framebuffer index
(yPos + row) * 64 + (xPos + col) is below 64 * 32, the column xPos + col is at
most 63, and the body of the column loop returns a state there; DRW is then
never a fault on the framebuffer; and for every state the index of the
top-left pixel of the sprite is below 64 * 32. -/
theorem C20_draw_indices_in_bounds (s : Chip8)
    (hx : (s.registers (selX s.opcode) % VIDEO_WIDTH) % 256 ≤ 56)
    (hy : (s.registers (selY s.opcode) % VIDEO_HEIGHT) % 256
        + (s.opcode &&& 0x000F) % 256 ≤ 32) :
    (∀ row col, row < (s.opcode &&& 0x000F) % 256 → col < 8 →
      ((s.registers (selY s.opcode) % VIDEO_HEIGHT) % 256 + row) * VIDEO_WIDTH
          + ((s.registers (selX s.opcode) % VIDEO_WIDTH) % 256 + col)
        < VIDEO_WIDTH * VIDEO_HEIGHT ∧
      (s.registers (selX s.opcode) % VIDEO_WIDTH) % 256 + col ≤ 63 ∧
      ∀ (b : Nat) (s2 : Chip8), ∃ s3,
        drawPixel b ((s.registers (selX s.opcode) % VIDEO_WIDTH) % 256)
          ((s.registers (selY s.opcode) % VIDEO_HEIGHT) % 256) row col s2 = .ok s3) ∧
    (∀ fuel i, OP_DXYN fuel s ≠ some (.error (.outOfBounds .video i))) ∧
    (∀ s2 : Chip8,
      pixelBase ((s2.registers (selX s2.opcode) % VIDEO_WIDTH) % 256)
        ((s2.registers (selY s2.opcode) % VIDEO_HEIGHT) % 256) 0
        < VIDEO_WIDTH * VIDEO_HEIGHT) := by
  have hy31 : ∀ s2 : Chip8, (s2.registers (selY s2.opcode) % VIDEO_HEIGHT) % 256 ≤ 31 := by
    intro s2
    have h1 : s2.registers (selY s2.opcode) % VIDEO_HEIGHT < 32 := Nat.mod_lt _ (by decide)
    have h2 := Nat.mod_le (s2.registers (selY s2.opcode) % VIDEO_HEIGHT) 256
    omega
  have hx63 : ∀ s2 : Chip8, (s2.registers (selX s2.opcode) % VIDEO_WIDTH) % 256 ≤ 63 := by
    intro s2
    have h1 : s2.registers (selX s2.opcode) % VIDEO_WIDTH < 64 := Nat.mod_lt _ (by decide)
    have h2 := Nat.mod_le (s2.registers (selX s2.opcode) % VIDEO_WIDTH) 256
    omega
  refine ⟨?_, ?_, ?_⟩
  · intro row col hrow hcol
    have hidx : ((s.registers (selY s.opcode) % VIDEO_HEIGHT) % 256 + row) * VIDEO_WIDTH
          + ((s.registers (selX s.opcode) % VIDEO_WIDTH) % 256 + col)
        < VIDEO_WIDTH * VIDEO_HEIGHT := by
      simp only [VIDEO_WIDTH, VIDEO_HEIGHT] at hx hy ⊢
      omega
    refine ⟨hidx, by omega, fun b s2 => ?_⟩
    by_cases hbit : bitSet b col
    · exact ⟨_, drawPixel_of_bitSet _ _ row s2 hbit (by
        unfold pixelBase
        have := hidx
        simp only [VIDEO_WIDTH, VIDEO_HEIGHT] at this ⊢
        omega)⟩
    · exact ⟨_, drawPixel_of_not_bitSet _ _ row s2 hbit⟩
  · intro fuel i he
    unfold OP_DXYN at he
    have hf := rowLoop_fault_memory _ _ _ 0 (by
      unfold pixelBase
      have := hy31 s
      simp only [VIDEO_WIDTH, VIDEO_HEIGHT] at hx this ⊢
      omega) fuel _ _ he
    cases hf
  · intro s2
    unfold pixelBase
    have h1 := hy31 s2
    have h2 := hx63 s2
    simp only [VIDEO_WIDTH, VIDEO_HEIGHT] at h1 h2 ⊢
    omega

/-- C20 at V0 = 10, V1 = 3 and the opcode 0xD015 (a 5-row sprite at column 10,
row 3). -/
theorem C20_draw_indices_in_bounds_witness :
    ((regState 10 3 0 0xD015).registers (selX (regState 10 3 0 0xD015).opcode)
        % VIDEO_WIDTH) % 256 ≤ 56 ∧
    ((regState 10 3 0 0xD015).registers (selY (regState 10 3 0 0xD015).opcode)
        % VIDEO_HEIGHT) % 256 + ((regState 10 3 0 0xD015).opcode &&& 0x000F) % 256 ≤ 32 ∧
    ((∀ row col, row < ((regState 10 3 0 0xD015).opcode &&& 0x000F) % 256 → col < 8 →
      (((regState 10 3 0 0xD015).registers (selY (regState 10 3 0 0xD015).opcode)
            % VIDEO_HEIGHT) % 256 + row) * VIDEO_WIDTH
          + (((regState 10 3 0 0xD015).registers (selX (regState 10 3 0 0xD015).opcode)
            % VIDEO_WIDTH) % 256 + col)
        < VIDEO_WIDTH * VIDEO_HEIGHT ∧
      ((regState 10 3 0 0xD015).registers (selX (regState 10 3 0 0xD015).opcode)
        % VIDEO_WIDTH) % 256 + col ≤ 63 ∧
      ∀ (b : Nat) (s2 : Chip8), ∃ s3,
        drawPixel b
          (((regState 10 3 0 0xD015).registers (selX (regState 10 3 0 0xD015).opcode)
            % VIDEO_WIDTH) % 256)
          (((regState 10 3 0 0xD015).registers (selY (regState 10 3 0 0xD015).opcode)
            % VIDEO_HEIGHT) % 256) row col s2 = .ok s3) ∧
    (∀ fuel i, OP_DXYN fuel (regState 10 3 0 0xD015) ≠ some (.error (.outOfBounds .video i))) ∧
    (∀ s2 : Chip8,
      pixelBase ((s2.registers (selX s2.opcode) % VIDEO_WIDTH) % 256)
        ((s2.registers (selY s2.opcode) % VIDEO_HEIGHT) % 256) 0
        < VIDEO_WIDTH * VIDEO_HEIGHT)) :=
  ⟨by decide, by decide, C20_draw_indices_in_bounds _ (by decide) (by decide)⟩

end Chip8Emu
